import Mathlib

/-!
Maestro scheduler lifecycle: a shallow embedding.

Embedded sources:

* `api/scheduler_handler.go`  : the three HTTP handlers (`ServeHTTP` of
  `SchedulerCreateHandler`, `SchedulerDeleteHandler`, `SchedulerUpdateHandler`);
* `models/namespace.go`       : `Namespace.Create`, `Namespace.Exists`, `Namespace.Delete`;
* `controller/controller_test.go` : the observable contract of the controller
  (`CreateScheduler`, `SaveSchedulerStateInfo`, `GetSchedulerStateInfo`), whose
  implementation is not part of the sources and is modelled from the specification.

Go values of interface type `error` are `Option GoError` (`none` is `nil`).
Stateful code is written in state-passing style: every operation takes the
state it acts on and returns its result together with the new state.
-/

namespace Maestro

/-! ## Errors -/

/-- The dynamic type of a Go `error` value, as far as the code under study can
observe it.  `validationFailed` is `*maestroErrors.ValidationFailedError`, the
only type the handlers test for; `notFound` and `alreadyExists` are the two
status errors of the container platform's object store; `plain` is every other
error (`errors.New`, `fmt.Errorf`, transport failures, store failures). -/
inductive ErrKind where
  | plain
  | validationFailed
  | notFound
  | alreadyExists
  deriving DecidableEq, Repr

/-- A non-nil Go `error`: its dynamic type and its message. -/
structure GoError where
  kind : ErrKind
  msg : String
  deriving DecidableEq, Repr

/-- Go `errors.New(msg)`. -/
def errorsNew (msg : String) : GoError := ⟨ErrKind.plain, msg⟩

/-- The constructor `maestroErrors.NewValidationFailedError(err)`: the result has
dynamic type `*ValidationFailedError` and carries the message of the wrapped error. -/
def NewValidationFailedError (err : GoError) : GoError := ⟨ErrKind.validationFailed, err.msg⟩

/-- The type assertion `_, ok := err.(*maestroErrors.ValidationFailedError)`. -/
def isValidationFailedError (err : GoError) : Bool :=
  decide (err.kind = ErrKind.validationFailed)

/-! ## Scheduler specification (`models.ConfigYAML`) -/

/-- One entry of `ports:` in the scheduler YAML. -/
structure Port where
  ContainerPort : Nat
  Protocol : String
  Name : String
  deriving DecidableEq, Repr

/-- One entry of `env:` in the scheduler YAML, and one entry of a container's
environment on the platform. -/
structure EnvVar where
  Name : String
  Value : String
  deriving DecidableEq, Repr

/-- The `limits:` block. -/
structure Limits where
  Memory : String
  CPU : String
  deriving DecidableEq, Repr

/-- The `trigger:` block of a scaling rule. -/
structure ScalingTrigger where
  Usage : Nat
  Time : Nat
  deriving DecidableEq, Repr

/-- One scaling rule (`up:` or `down:`). -/
structure ScalingPolicy where
  Delta : Nat
  Trigger : ScalingTrigger
  Cooldown : Nat
  deriving DecidableEq, Repr

/-- The `autoscaling:` block. -/
structure AutoScaling where
  Min : Nat
  Up : ScalingPolicy
  Down : ScalingPolicy
  deriving DecidableEq, Repr

/-- The scheduler specification, with the fields of `yaml1` in
`controller_test.go`. -/
structure ConfigYAML where
  Name : String
  Game : String
  Image : String
  Ports : List Port
  Limits : Limits
  ShutdownTimeout : Nat
  AutoScaling : AutoScaling
  Env : List EnvVar
  Cmd : List String
  deriving DecidableEq, Repr

/-! ## HTTP handlers (`api/scheduler_handler.go`) -/

/-- `http.StatusOK`. -/
def StatusOK : Nat := 200
/-- `http.StatusCreated`. -/
def StatusCreated : Nat := 201
/-- `http.StatusBadRequest`. -/
def StatusBadRequest : Nat := 400
/-- `http.StatusNotFound`. -/
def StatusNotFound : Nat := 404
/-- `http.StatusInternalServerError`. -/
def StatusInternalServerError : Nat := 500

/-- The literal body the handlers write on success. -/
def successBody : String := "\x7b\"success\": true\x7d"

/-- What a handler does to its `http.ResponseWriter`: either a call
`g.App.HandleError(w, status, msg, err)` or a call `Write(w, status, text)`.
Both helpers live outside the embedded sources, so a response is recorded as
the call with its arguments. -/
inductive Response where
  | handleError (status : Nat) (msg : String) (err : GoError)
  | write (status : Nat) (text : String)
  deriving DecidableEq, Repr

/-- The HTTP status a recorded response carries. -/
def Response.status : Response → Nat
  | Response.handleError s _ _ => s
  | Response.write s _ => s

/-- Severity of a log line. -/
inductive LogLevel where
  | debug
  | error
  deriving DecidableEq, Repr

/-- One line given to the logger, with the error attached by `WithError`. -/
structure LogEntry where
  level : LogLevel
  msg : String
  err : Option GoError
  deriving DecidableEq, Repr

/-- The collaborators a handler reaches through `g.App` and the `controller`
package, over an arbitrary state `σ` of the three back-ends (relational store,
key-value store, container platform).  Each is an arbitrary state transformer:
the handlers are verified for every behaviour of the controller. -/
structure Controller (σ : Type) where
  /-- The call `redis.NewClient("extensions.redis", config, client)`; only its error matters. -/
  NewRedisClient : σ → Option GoError × σ
  /-- The call `controller.CreateScheduler(.., payload, timeoutSec)`. -/
  CreateScheduler : ConfigYAML → Nat → σ → Option GoError × σ
  /-- The call `controller.DeleteScheduler(.., schedulerName, timeoutSec)`. -/
  DeleteScheduler : String → Nat → σ → Option GoError × σ
  /-- The call `controller.UpdateSchedulerConfig(.., payload, timeoutSec, lockTimeoutMs, lockKey, clock)`. -/
  UpdateSchedulerConfig : ConfigYAML → Nat → Nat → String → σ → Option GoError × σ

/-- The values the handlers read from `g.App.Config`. -/
structure AppConfig where
  scaleUpTimeoutSeconds : Nat
  deleteTimeoutSeconds : Nat
  updateTimeoutSeconds : Nat
  watcherLockTimeoutMs : Nat
  watcherLockKey : String
  deriving DecidableEq, Repr

/-- The `App` a handler holds. -/
structure App (σ : Type) where
  Config : AppConfig
  controller : Controller σ

/-- What a handler reads from the request context: the URL parameters
(`schedulerParamsFromContext`) and the decoded payload (`configYamlFromCtx`). -/
structure Request where
  SchedulerName : String
  payload : ConfigYAML
  deriving DecidableEq, Repr

/-- Calls a handler issued to the collaborators, in order. -/
inductive Call where
  | newRedisClient
  | createScheduler (payload : ConfigYAML) (timeoutSec : Nat)
  | deleteScheduler (name : String) (timeoutSec : Nat)
  | updateSchedulerConfig (payload : ConfigYAML) (timeoutSec lockTimeoutMs : Nat) (lockKey : String)
  deriving DecidableEq, Repr

/-- Everything observable after a handler returned. -/
structure Served (σ : Type) where
  world : σ
  calls : List Call
  responses : List Response
  logs : List LogEntry

/-- Modelled from the spec: the method `mr.WithSegment(segment, f)` of
`models.MixedMetricsReporter`, which is not in the sources.  Section 1 puts the
metrics wiring out of scope: the segment runs `f` and hands back what `f`
returned. -/
def WithSegment {α : Type} (f : Unit → α) : α := f ()

/-- The method `SchedulerCreateHandler.ServeHTTP`. -/
def SchedulerCreateHandler.ServeHTTP {σ : Type} (g : App σ) (r : Request) (s : σ) : Served σ :=
  let logs := [LogEntry.mk LogLevel.debug "Creating scheduler..." none]
  let timeoutSec := g.Config.scaleUpTimeoutSeconds
  let res := WithSegment (fun _ => g.controller.CreateScheduler r.payload timeoutSec s)
  let calls := [Call.createScheduler r.payload timeoutSec]
  match res.1 with
  | some err =>
    { world := res.2, calls := calls,
      responses := [Response.handleError StatusInternalServerError "Create scheduler failed" err],
      logs := logs ++ [LogEntry.mk LogLevel.error "Create scheduler failed." (some err)] }
  | none =>
    { world := res.2, calls := calls,
      responses := WithSegment (fun _ => [Response.write StatusCreated successBody]),
      logs := logs ++ [LogEntry.mk LogLevel.debug "Create scheduler succeeded." none] }

/-- The method `SchedulerDeleteHandler.ServeHTTP`. -/
def SchedulerDeleteHandler.ServeHTTP {σ : Type} (g : App σ) (r : Request) (s : σ) : Served σ :=
  let logs := [LogEntry.mk LogLevel.debug "Deleting scheduler..." none]
  let timeoutSec := g.Config.deleteTimeoutSeconds
  let res := WithSegment (fun _ => g.controller.DeleteScheduler r.SchedulerName timeoutSec s)
  let calls := [Call.deleteScheduler r.SchedulerName timeoutSec]
  match res.1 with
  | some err =>
    { world := res.2, calls := calls,
      responses := [Response.handleError StatusInternalServerError "Delete scheduler failed" err],
      logs := logs ++ [LogEntry.mk LogLevel.error "Delete scheduler failed." (some err)] }
  | none =>
    { world := res.2, calls := calls,
      responses := WithSegment (fun _ => [Response.write StatusOK successBody]),
      logs := logs ++ [LogEntry.mk LogLevel.debug "Delete scheduler succeeded." none] }

/-- The message built by
`fmt.Sprintf("url name %s doesn't match payload name %s", urlName, payloadName)`. -/
def nameMismatchMsg (urlName payloadName : String) : String :=
  "url name " ++ urlName ++ " doesn't match payload name " ++ payloadName

/-- The status `SchedulerUpdateHandler.ServeHTTP` picks for a controller error:
`http.StatusInternalServerError`, replaced by `http.StatusNotFound` when the type
assertion to `*ValidationFailedError` succeeds. -/
def updateErrorStatus (err : GoError) : Nat :=
  if isValidationFailedError err then StatusNotFound else StatusInternalServerError

/-- The method `SchedulerUpdateHandler.ServeHTTP`. -/
def SchedulerUpdateHandler.ServeHTTP {σ : Type} (g : App σ) (r : Request) (s : σ) : Served σ :=
  let logs := [LogEntry.mk LogLevel.debug ("Updating scheduler " ++ r.SchedulerName) none]
  if r.SchedulerName ≠ r.payload.Name then
    let msg := nameMismatchMsg r.SchedulerName r.payload.Name
    let err := NewValidationFailedError (errorsNew msg)
    { world := s, calls := [],
      responses := [Response.handleError StatusBadRequest "Update scheduler failed" err],
      logs := logs }
  else
    let rc := g.controller.NewRedisClient s
    match rc.1 with
    | some err =>
      { world := rc.2, calls := [Call.newRedisClient],
        responses := [Response.handleError StatusInternalServerError "Update scheduler failed" err],
        logs := logs ++ [LogEntry.mk LogLevel.error "error getting redisClient" (some err)] }
    | none =>
      let timeoutSec := g.Config.updateTimeoutSeconds
      let res := WithSegment (fun _ =>
        g.controller.UpdateSchedulerConfig r.payload timeoutSec
          g.Config.watcherLockTimeoutMs g.Config.watcherLockKey rc.2)
      let calls := [Call.newRedisClient,
        Call.updateSchedulerConfig r.payload timeoutSec
          g.Config.watcherLockTimeoutMs g.Config.watcherLockKey]
      match res.1 with
      | some err =>
        { world := res.2, calls := calls,
          responses := [Response.handleError (updateErrorStatus err) "Update scheduler failed" err],
          logs := logs ++ [LogEntry.mk LogLevel.error "Update scheduler failed." (some err)] }
      | none =>
        { world := res.2, calls := calls,
          responses := WithSegment (fun _ => [Response.write StatusOK successBody]),
          logs := logs ++ [LogEntry.mk LogLevel.debug "Update scheduler succeeded." none] }

/-! ## Container platform (`kubernetes.Interface`) -/

/-- A workload of the platform (a pod with its single container). -/
structure Pod where
  Name : String
  Image : String
  Env : List EnvVar
  Cmd : List String
  Limits : Limits
  deriving DecidableEq, Repr

/-- One port of a network-service object, with the node port bound to it. -/
structure ServicePort where
  Name : String
  Protocol : String
  Port : Nat
  NodePort : Nat
  deriving DecidableEq, Repr

/-- A network-service object of the platform. -/
structure Service where
  Name : String
  Ports : List ServicePort
  deriving DecidableEq, Repr

/-- A namespace of the platform together with the objects that live in it. -/
structure NamespaceObject where
  Name : String
  Pods : List Pod
  Services : List Service
  deriving DecidableEq, Repr

/-- The requests the code sends to the platform. -/
inductive KubeCall where
  | namespacesCreate (name : String)
  | namespacesGet (name : String)
  | namespacesDelete (name : String)
  | podsCreate (ns name : String)
  | podsDelete (ns name : String)
  | servicesCreate (ns name : String)
  | servicesDelete (ns name : String)
  deriving DecidableEq, Repr

/-- The container platform as seen through `kubernetes.Interface`, the client
library the code calls (an external collaborator; section 6 of the
specification lists its capabilities).  Names are unique per kind within a
namespace, workloads and services live in a stored namespace, and deleting a
namespace removes what it holds (section 4.2).

* `namespaces` is the object store: the namespaces in creation order, each
  with its workloads and services (the tests read it back with `List`);
* `faults` scripts the transport: the head is the fate of the next request,
  `some err` makes that request fail with `err` before it reaches the object
  store, `none` (or an exhausted script) lets it through;
* `calls` records every request, in order;
* `nextNodePort` is the next node port the platform hands out. -/
structure Clientset where
  namespaces : List NamespaceObject
  faults : List (Option GoError)
  calls : List KubeCall
  nextNodePort : Nat
  deriving DecidableEq, Repr

/-- A fresh platform with a reliable transport, as `fake.NewSimpleClientset()`. -/
def Clientset.fresh : Clientset :=
  { namespaces := [], faults := [], calls := [], nextNodePort := 30000 }

/-- A request enters the platform: it is recorded and the transport script
advances by one; the result is the transport failure scripted for it, if any. -/
def Clientset.enter (c : Clientset) (call : KubeCall) : Option GoError × Clientset :=
  match c.faults with
  | [] => (none, { c with calls := c.calls ++ [call] })
  | f :: rest => (f, { c with faults := rest, calls := c.calls ++ [call] })

/-- The transport never fails: no request still scripted is a failure. -/
def Clientset.reliable (c : Clientset) : Prop := ∀ f ∈ c.faults, f = none

instance (c : Clientset) : Decidable c.reliable := by
  unfold Clientset.reliable
  infer_instance

/-- The namespace object stored under `name`, if any. -/
def Clientset.findNamespace (c : Clientset) (name : String) : Option NamespaceObject :=
  c.namespaces.find? (fun o => decide (o.Name = name))

/-- The stored namespaces called `name`. -/
def Clientset.namespacesNamed (c : Clientset) (name : String) : List NamespaceObject :=
  c.namespaces.filter (fun o => decide (o.Name = name))

/-- The workloads of namespace `ns` (`Pods(ns).List`). -/
def Clientset.podsIn (c : Clientset) (ns : String) : List Pod :=
  match c.findNamespace ns with
  | some o => o.Pods
  | none => []

/-- The services of namespace `ns` (`Services(ns).List`). -/
def Clientset.servicesIn (c : Clientset) (ns : String) : List Service :=
  match c.findNamespace ns with
  | some o => o.Services
  | none => []

/-- Apply `f` to the namespace called `ns`. -/
def Clientset.modifyNamespace (c : Clientset) (ns : String)
    (f : NamespaceObject → NamespaceObject) : Clientset :=
  { c with namespaces := c.namespaces.map (fun o => if o.Name = ns then f o else o) }

/-- The status error "not found" of the object store. -/
def kubeNotFound (what name : String) : GoError :=
  ⟨ErrKind.notFound, what ++ " \"" ++ name ++ "\" not found"⟩

/-- The status error "already exists" of the object store. -/
def kubeAlreadyExists (what name : String) : GoError :=
  ⟨ErrKind.alreadyExists, what ++ " \"" ++ name ++ "\" already exists"⟩

/-- The request `clientset.CoreV1().Namespaces().Create(namespace)`. -/
def Clientset.NamespacesCreate (c : Clientset) (name : String) : Option GoError × Clientset :=
  match c.enter (KubeCall.namespacesCreate name) with
  | (some err, c1) => (some err, c1)
  | (none, c1) =>
    match c1.findNamespace name with
    | some _ => (some (kubeAlreadyExists "namespaces" name), c1)
    | none => (none, { c1 with namespaces := c1.namespaces ++ [⟨name, [], []⟩] })

/-- The request `clientset.CoreV1().Namespaces().Get(name, metav1.GetOptions{})`. -/
def Clientset.NamespacesGet (c : Clientset) (name : String) :
    Except GoError NamespaceObject × Clientset :=
  match c.enter (KubeCall.namespacesGet name) with
  | (some err, c1) => (Except.error err, c1)
  | (none, c1) =>
    match c1.findNamespace name with
    | some o => (Except.ok o, c1)
    | none => (Except.error (kubeNotFound "namespaces" name), c1)

/-- The request `clientset.CoreV1().Namespaces().Delete(name, &metav1.DeleteOptions{})`.
Deleting a namespace removes what it contains, the cascade sections 4.2 and 6
of the specification require of the platform.  (The fake clientset of the tests
keeps the contents listed; the rollback of `CreateScheduler` is therefore
verified to have emptied the namespace, request by request, before this
request is sent.) -/
def Clientset.NamespacesDelete (c : Clientset) (name : String) : Option GoError × Clientset :=
  match c.enter (KubeCall.namespacesDelete name) with
  | (some err, c1) => (some err, c1)
  | (none, c1) =>
    match c1.findNamespace name with
    | some _ =>
      (none, { c1 with namespaces := c1.namespaces.filter (fun o => decide (o.Name ≠ name)) })
    | none => (some (kubeNotFound "namespaces" name), c1)

/-- The request `clientset.CoreV1().Pods(ns).Create(pod)`. -/
def Clientset.PodsCreate (c : Clientset) (ns : String) (pod : Pod) : Option GoError × Clientset :=
  match c.enter (KubeCall.podsCreate ns pod.Name) with
  | (some err, c1) => (some err, c1)
  | (none, c1) =>
    match c1.findNamespace ns with
    | none => (some (kubeNotFound "namespaces" ns), c1)
    | some o =>
      if pod.Name ∈ o.Pods.map Pod.Name then (some (kubeAlreadyExists "pods" pod.Name), c1)
      else (none, c1.modifyNamespace ns (fun o => { o with Pods := o.Pods ++ [pod] }))

/-- The request `clientset.CoreV1().Pods(ns).Delete(name, ..)`. -/
def Clientset.PodsDelete (c : Clientset) (ns name : String) : Option GoError × Clientset :=
  match c.enter (KubeCall.podsDelete ns name) with
  | (some err, c1) => (some err, c1)
  | (none, c1) =>
    if name ∈ (c1.podsIn ns).map Pod.Name then
      (none, c1.modifyNamespace ns
        (fun o => { o with Pods := o.Pods.filter (fun p => decide (p.Name ≠ name)) }))
    else (some (kubeNotFound "pods" name), c1)

/-- The request `clientset.CoreV1().Services(ns).Create(service)`. -/
def Clientset.ServicesCreate (c : Clientset) (ns : String) (svc : Service) :
    Option GoError × Clientset :=
  match c.enter (KubeCall.servicesCreate ns svc.Name) with
  | (some err, c1) => (some err, c1)
  | (none, c1) =>
    match c1.findNamespace ns with
    | none => (some (kubeNotFound "namespaces" ns), c1)
    | some o =>
      if svc.Name ∈ o.Services.map Service.Name then
        (some (kubeAlreadyExists "services" svc.Name), c1)
      else (none, c1.modifyNamespace ns (fun o => { o with Services := o.Services ++ [svc] }))

/-- The request `clientset.CoreV1().Services(ns).Delete(name, ..)`. -/
def Clientset.ServicesDelete (c : Clientset) (ns name : String) : Option GoError × Clientset :=
  match c.enter (KubeCall.servicesDelete ns name) with
  | (some err, c1) => (some err, c1)
  | (none, c1) =>
    if name ∈ (c1.servicesIn ns).map Service.Name then
      (none, c1.modifyNamespace ns
        (fun o => { o with Services := o.Services.filter (fun p => decide (p.Name ≠ name)) }))
    else (some (kubeNotFound "services" name), c1)

/-! ## `models/namespace.go` -/

/-- The struct `Namespace`. -/
structure Namespace where
  Name : String
  deriving DecidableEq, Repr

/-- The constructor `NewNamespace`. -/
def NewNamespace (name : String) : Namespace := { Name := name }

/-- The method `Namespace.Create`: one `Namespaces().Create` request, whose error is returned. -/
def Namespace.Create (n : Namespace) (clientset : Clientset) : Option GoError × Clientset :=
  clientset.NamespacesCreate n.Name

/-- The method `Namespace.Exists`: one `Namespaces().Get` request; the result is `err == nil`. -/
def Namespace.Exists (n : Namespace) (clientset : Clientset) : Bool × Clientset :=
  let r := clientset.NamespacesGet n.Name
  match r.1 with
  | Except.ok _ => (true, r.2)
  | Except.error _ => (false, r.2)

/-- The method `Namespace.Delete`: the `Namespaces().Delete` request is sent only
when `Exists` answered true, and its error is returned; otherwise the result is `nil`. -/
def Namespace.Delete (n : Namespace) (clientset : Clientset) : Option GoError × Clientset :=
  let ex := n.Exists clientset
  if ex.1 then ex.2.NamespacesDelete n.Name
  else (none, ex.2)

/-! ## Decimal strings (`strconv`) -/

/-- The ASCII character of the decimal digit `d`. -/
def digitChar (d : Nat) : Char := Char.ofNat (48 + d)

/-- The decimal digits of `n`, most significant first.  The first argument
bounds the number of digits; `n + 1` is always enough. -/
def decimalDigits : Nat → Nat → List Char
  | 0, _ => []
  | fuel + 1, n =>
    if n < 10 then [digitChar n] else decimalDigits fuel (n / 10) ++ [digitChar (n % 10)]

/-- Go `strconv.FormatInt(i, 10)` (and `strconv.Itoa`): the decimal form in which
an integer field is written to, and read back from, the key-value store. -/
def FormatInt (i : Int) : String :=
  match i with
  | Int.ofNat n => String.mk (decimalDigits (n + 1) n)
  | Int.negSucc n => String.mk ('-' :: decimalDigits (n + 2) (n + 1))

/-- The value of a decimal digit character. -/
def parseDigit (c : Char) : Option Nat :=
  if 48 ≤ c.toNat ∧ c.toNat ≤ 57 then some (c.toNat - 48) else none

/-- Read a run of decimal digits, continuing from the value `acc`. -/
def parseDigits (acc : Nat) : List Char → Option Nat
  | [] => some acc
  | c :: cs =>
    match parseDigit c with
    | some d => parseDigits (acc * 10 + d) cs
    | none => none

/-- The error `strconv.ParseInt` returns for text that is no integer. -/
def errSyntax (s : String) : GoError :=
  errorsNew ("strconv.ParseInt: parsing \"" ++ s ++ "\": invalid syntax")

/-- The error `strconv.ParseInt` returns for an integer outside the 64-bit range. -/
def errRange (s : String) : GoError :=
  errorsNew ("strconv.ParseInt: parsing \"" ++ s ++ "\": value out of range")

/-- Go `strconv.ParseInt(s, 10, 64)`: an optional sign, then one or more decimal
digits; the value must fit a signed 64-bit integer. -/
def ParseInt (s : String) : Except GoError Int :=
  match s.data with
  | [] => Except.error (errSyntax s)
  | c :: cs =>
    if c = '-' then
      match cs with
      | [] => Except.error (errSyntax s)
      | _ :: _ =>
        match parseDigits 0 cs with
        | none => Except.error (errSyntax s)
        | some n => if n ≤ 2 ^ 63 then Except.ok (-(n : Int)) else Except.error (errRange s)
    else if c = '+' then
      match cs with
      | [] => Except.error (errSyntax s)
      | _ :: _ =>
        match parseDigits 0 cs with
        | none => Except.error (errSyntax s)
        | some n => if n < 2 ^ 63 then Except.ok (n : Int) else Except.error (errRange s)
    else
      match parseDigits 0 (c :: cs) with
      | none => Except.error (errSyntax s)
      | some n => if n < 2 ^ 63 then Except.ok (n : Int) else Except.error (errRange s)

/-! ## Relational store -/

/-- The struct `models.Scheduler`, a row of table `schedulers`.  `YAML` is the
raw serialisation of the specification, kept as the value it serialises. -/
structure Scheduler where
  ID : Nat
  Name : String
  Game : String
  YAML : ConfigYAML
  deriving DecidableEq, Repr

/-- The relational store behind `pginterfaces.DB` (an external collaborator,
section 6): its rows, the script of failures of the coming queries (read as
for the platform), and the next identity it assigns. -/
structure DB where
  schedulers : List Scheduler
  faults : List (Option GoError)
  nextID : Nat
  deriving DecidableEq, Repr

/-- A query reaches the store: the script advances by one. -/
def DB.enter (db : DB) : Option GoError × DB :=
  match db.faults with
  | [] => (none, db)
  | f :: rest => (f, { db with faults := rest })

/-- The query `INSERT INTO schedulers (name, game, yaml) VALUES (..) RETURNING id`.
Scheduler names are unique. -/
def DB.Insert (db : DB) (name game : String) (yaml : ConfigYAML) : Option GoError × DB :=
  match db.enter with
  | (some err, db1) => (some err, db1)
  | (none, db1) =>
    if name ∈ db1.schedulers.map Scheduler.Name then
      (some (errorsNew ("duplicate key value violates unique constraint: " ++ name)), db1)
    else
      (none, { db1 with
        schedulers := db1.schedulers ++ [⟨db1.nextID, name, game, yaml⟩],
        nextID := db1.nextID + 1 })

/-- The query `SELECT * FROM schedulers WHERE name = ?`. -/
def DB.QueryByName (db : DB) (name : String) : Except GoError Scheduler × DB :=
  match db.enter with
  | (some err, db1) => (Except.error err, db1)
  | (none, db1) =>
    match db1.schedulers.find? (fun r => decide (r.Name = name)) with
    | some r => (Except.ok r, db1)
    | none => (Except.error (errorsNew ("scheduler \"" ++ name ++ "\" not found")), db1)

/-! ## Key-value store -/

/-- The key-value store behind `redisinterfaces.RedisClient` (an external
collaborator, section 6): hashes (key to field/value pairs), sets (key to
members), and the script of failures of the coming commands. -/
structure Redis where
  hashes : List (String × List (String × String))
  sets : List (String × List String)
  faults : List (Option GoError)
  deriving DecidableEq, Repr

/-- A command (or one `Exec` of a pipeline) reaches the store: the script advances by one. -/
def Redis.enter (r : Redis) : Option GoError × Redis :=
  match r.faults with
  | [] => (none, r)
  | f :: rest => (f, { r with faults := rest })

/-- The fields of the hash at `key` (none for a missing key). -/
def Redis.hashAt (r : Redis) (key : String) : List (String × String) :=
  (r.hashes.lookup key).getD []

/-- The members of the set at `key`. -/
def Redis.setAt (r : Redis) (key : String) : List String :=
  (r.sets.lookup key).getD []

/-- The hash `old` after the fields `fields` were written into it. -/
def hashWrite (old fields : List (String × String)) : List (String × String) :=
  fields ++ old.filter (fun p => decide (p.1 ∉ fields.map Prod.fst))

/-- The effect of `HMSET key fields` on the data. -/
def Redis.putHash (r : Redis) (key : String) (fields : List (String × String)) : Redis :=
  { r with hashes :=
      (key, hashWrite (r.hashAt key) fields) :: r.hashes.filter (fun p => decide (p.1 ≠ key)) }

/-- The effect of `SADD key member` on the data. -/
def Redis.addMember (r : Redis) (key member : String) : Redis :=
  { r with sets :=
      (key, (r.setAt key).filter (fun m => decide (m ≠ member)) ++ [member]) ::
        r.sets.filter (fun p => decide (p.1 ≠ key)) }

/-- The effect of `SREM key member` on the data. -/
def Redis.removeMember (r : Redis) (key member : String) : Redis :=
  { r with sets :=
      (key, (r.setAt key).filter (fun m => decide (m ≠ member))) ::
        r.sets.filter (fun p => decide (p.1 ≠ key)) }

/-- The effect of `DEL key` on the hashes. -/
def Redis.dropHash (r : Redis) (key : String) : Redis :=
  { r with hashes := r.hashes.filter (fun p => decide (p.1 ≠ key)) }

/-- The command `HMSet(key, fields)`. -/
def Redis.HMSet (r : Redis) (key : String) (fields : List (String × String)) :
    Option GoError × Redis :=
  match r.enter with
  | (some err, r1) => (some err, r1)
  | (none, r1) => (none, r1.putHash key fields)

/-- The command `HGetAll(key)`. -/
def Redis.HGetAll (r : Redis) (key : String) :
    Except GoError (List (String × String)) × Redis :=
  match r.enter with
  | (some err, r1) => (Except.error err, r1)
  | (none, r1) => (Except.ok (r1.hashAt key), r1)

/-! ## Scheduler runtime state (`controller.SaveSchedulerStateInfo`, `GetSchedulerStateInfo`) -/

/-- The struct `models.SchedulerState` built by `models.NewSchedulerState(name,
state, lastChangedAt, lastScaleOpAt)`; the timestamps are `int64` unix seconds. -/
structure SchedulerState where
  Name : String
  State : String
  LastChangedAt : Int
  LastScaleOpAt : Int
  deriving DecidableEq, Repr

/-- The constructor `models.NewSchedulerState`. -/
def NewSchedulerState (name state : String) (lastChangedAt lastScaleOpAt : Int) :
    SchedulerState :=
  { Name := name, State := state, LastChangedAt := lastChangedAt,
    LastScaleOpAt := lastScaleOpAt }

/-- The value is a Go `int64`. -/
def isInt64 (i : Int) : Prop := -(2 ^ 63 : Int) ≤ i ∧ i < (2 ^ 63 : Int)

/-- The three fields written for a state record, as the test of
`SaveSchedulerStateInfo` expects them, integers in the decimal form the store
keeps. -/
def stateFields (st : SchedulerState) : List (String × String) :=
  [("state", st.State),
   ("lastChangedAt", FormatInt st.LastChangedAt),
   ("lastScaleOpAt", FormatInt st.LastScaleOpAt)]

/-- Modelled from the spec: `controller.SaveSchedulerStateInfo`, whose body is
not in the sources (only its test is).  Section 4.5: a pure key-value write of
the runtime state record (state, last-changed-at, last-scale-op-at) under the
scheduler name as key, a write failure surfaced verbatim, no retry.  The test
fixes the command: one `HMSet(name, {state, lastChangedAt, lastScaleOpAt})`. -/
def SaveSchedulerStateInfo (redis : Redis) (st : SchedulerState) : Option GoError × Redis :=
  redis.HMSet st.Name (stateFields st)

/-- The Go map index `m[field]` on the result of `HGetAll`: the empty string for a missing field. -/
def fieldOf (m : List (String × String)) (field : String) : String :=
  (m.lookup field).getD ""

/-- Modelled from the spec: `controller.GetSchedulerStateInfo`, whose body is not
in the sources (only its test is).  Section 4.5: a pure key-value read of the
runtime state record under the scheduler name as key, a read failure surfaced
verbatim, no retry.  The test fixes the command, one `HGetAll(name)`, and that
the two timestamps come back in decimal form and are parsed to `int64`. -/
def GetSchedulerStateInfo (redis : Redis) (name : String) :
    Except GoError SchedulerState × Redis :=
  match redis.HGetAll name with
  | (Except.error err, r1) => (Except.error err, r1)
  | (Except.ok m, r1) =>
    match ParseInt (fieldOf m "lastChangedAt") with
    | Except.error err => (Except.error err, r1)
    | Except.ok changed =>
      match ParseInt (fieldOf m "lastScaleOpAt") with
      | Except.error err => (Except.error err, r1)
      | Except.ok scaled =>
        (Except.ok (NewSchedulerState name (fieldOf m "state") changed scaled), r1)

/-! ## Scheduler creation (`controller.CreateScheduler`) -/

/-- Everything `CreateScheduler` acts on: the three back-ends, the source of
randomness for room identities (the coming draws), and the log. -/
structure World where
  clientset : Clientset
  db : DB
  redis : Redis
  random : List Nat
  logs : List LogEntry
  deriving DecidableEq, Repr

/-- The ASCII character of the hexadecimal digit `d`. -/
def hexChar (d : Nat) : Char := if d < 10 then Char.ofNat (48 + d) else Char.ofNat (87 + d)

/-- The eight hexadecimal digits of the low 32 bits of `r`. -/
def hex8 (r : Nat) : List Char :=
  [7, 6, 5, 4, 3, 2, 1, 0].map (fun i => hexChar (r / 16 ^ i % 16))

/-- The length of the random suffix of a room identity. -/
def roomSuffixLength : Nat := 8

/-- Modelled from the spec: the generated identity of a room, whose generator is
not in the sources.  Section 3: scheduler name plus random suffix, of fixed
total length; the test fixes the shape, the scheduler name, a dash, and eight
more characters.  The suffix is read off the random draw `r`. -/
def roomName (schedulerName : String) (r : Nat) : String :=
  schedulerName ++ "-" ++ String.mk (hex8 r)

/-- Modelled from the spec: the name of the environment variable announcing the
node port of a declared port, `MAESTRO_NODE_PORT_<containerPort>_<PROTOCOL>`
(section 6); its builder is not in the sources. -/
def nodePortEnvName (p : Port) : String :=
  "MAESTRO_NODE_PORT_" ++ FormatInt (p.ContainerPort : Int) ++ "_" ++ p.Protocol

/-- Modelled from the spec: one environment variable per declared port, in
declared order (section 6), its value the node port allocated for it. -/
def nodePortEnv : List Port → List Nat → List EnvVar
  | [], _ => []
  | p :: ps, nodePorts =>
    ⟨nodePortEnvName p, FormatInt (nodePorts.headD 0 : Nat)⟩ :: nodePortEnv ps nodePorts.tail

/-- Modelled from the spec: the environment of a room, whose builder is not in
the sources.  Section 6: `MAESTRO_SCHEDULER_NAME`, `MAESTRO_ROOM_ID`, and one
`MAESTRO_NODE_PORT_<containerPort>_<PROTOCOL>` per declared port, in the order
ports are declared, appended after any user-declared environment variables. -/
def roomEnv (cfg : ConfigYAML) (room : String) (nodePorts : List Nat) : List EnvVar :=
  cfg.Env ++
    [⟨"MAESTRO_SCHEDULER_NAME", cfg.Name⟩, ⟨"MAESTRO_ROOM_ID", room⟩] ++
    nodePortEnv cfg.Ports nodePorts

/-- Modelled from the spec: the platform workload of a room (section 4.1, step
2), built from the image, command, limits and environment of the specification. -/
def roomPod (cfg : ConfigYAML) (room : String) (nodePorts : List Nat) : Pod :=
  { Name := room, Image := cfg.Image, Env := roomEnv cfg room nodePorts,
    Cmd := cfg.Cmd, Limits := cfg.Limits }

/-- Modelled from the spec: the ports of the service of a room, one per declared
port with its node port. -/
def servicePorts : List Port → List Nat → List ServicePort
  | [], _ => []
  | p :: ps, nodePorts =>
    ⟨p.Name, p.Protocol, p.ContainerPort, nodePorts.headD 0⟩ :: servicePorts ps nodePorts.tail

/-- Modelled from the spec: the network-service object matching the workload of
a room (section 4.1, step 2). -/
def roomService (cfg : ConfigYAML) (room : String) (nodePorts : List Nat) : Service :=
  { Name := room, Ports := servicePorts cfg.Ports nodePorts }

/-- Modelled from the spec: allocation of node ports for every declared container
port (section 4.1, step 2): the next free ones of the platform. -/
def allocateNodePorts (c : Clientset) (ports : List Port) : List Nat × Clientset :=
  (List.range' c.nextNodePort ports.length,
   { c with nextNodePort := c.nextNodePort + ports.length })

/-- Modelled from the spec: the key `models.GetRoomStatusSetRedisKey(schedulerName,
status)` of the room status index, a set keyed by scheduler and status (section
2); the function is not in the sources. -/
def GetRoomStatusSetRedisKey (schedulerName status : String) : String :=
  "scheduler:" ++ schedulerName ++ ":status:" ++ status

/-- Modelled from the spec: the key of the status hash of a room. -/
def GetRoomRedisKey (schedulerName room : String) : String :=
  "scheduler:" ++ schedulerName ++ ":rooms:" ++ room

/-- Modelled from the spec: registration of a room in the room status index
(section 4.1, step 2, and the commands the test expects): one pipeline transaction
(`TxPipeline`, `HMSet(roomKey, {status: creating, lastPing: 0})`,
`SAdd(statusSetKey, room)`, `Exec`), applied as a whole or not at all. -/
def registerRoom (r : Redis) (schedulerName room : String) : Option GoError × Redis :=
  match r.enter with
  | (some err, r1) => (some err, r1)
  | (none, r1) =>
    (none,
      (r1.putHash (GetRoomRedisKey schedulerName room)
          [("status", "creating"), ("lastPing", FormatInt 0)]).addMember
        (GetRoomStatusSetRedisKey schedulerName "creating") room)

/-- Modelled from the spec: removal of a room from the room status index during
rollback (section 4.1, step 4): one pipeline transaction. -/
def unregisterRoom (r : Redis) (schedulerName room : String) : Option GoError × Redis :=
  match r.enter with
  | (some err, r1) => (some err, r1)
  | (none, r1) =>
    (none,
      (r1.dropHash (GetRoomRedisKey schedulerName room)).removeMember
        (GetRoomStatusSetRedisKey schedulerName "creating") room)

/-- Modelled from the spec: a completed step of `CreateScheduler` that rollback
has to invert (section 9, the stack of completed steps). -/
inductive Undo where
  | pod (room : String)
  | service (room : String)
  | roomIndex (room : String)
  deriving DecidableEq, Repr

/-- Modelled from the spec: a failed rollback step is logged; nothing else
happens with its error (section 4.1, step 4). -/
def logRollbackFailure (logs : List LogEntry) (what : String) (err : Option GoError) :
    List LogEntry :=
  match err with
  | some e => logs ++ [LogEntry.mk LogLevel.error what (some e)]
  | none => logs

/-- Modelled from the spec: the inverse of one completed step. -/
def undoStep (cfg : ConfigYAML) (w : World) : Undo → World
  | Undo.pod room =>
    let r := w.clientset.PodsDelete cfg.Name room
    { w with clientset := r.2, logs := logRollbackFailure w.logs "error deleting pod" r.1 }
  | Undo.service room =>
    let r := w.clientset.ServicesDelete cfg.Name room
    { w with clientset := r.2, logs := logRollbackFailure w.logs "error deleting service" r.1 }
  | Undo.roomIndex room =>
    let r := unregisterRoom w.redis cfg.Name room
    { w with redis := r.2, logs := logRollbackFailure w.logs "error removing room from redis" r.1 }

/-- Modelled from the spec: the first half of the rollback of `CreateScheduler`
(section 4.1, step 4): the platform objects of the provisioned rooms are
deleted and their index entries removed, one request per completed step, the
latest step first. -/
def undoAll (cfg : ConfigYAML) (w : World) (undo : List Undo) : World :=
  undo.foldl (undoStep cfg) w

/-- Modelled from the spec: the rollback of `CreateScheduler`, whose body is not
in the sources.  Section 4.1, step 4: full teardown of everything created in
this invocation; the platform objects of the provisioned rooms are deleted and
their index entries removed (`undoAll`), then the namespace itself is deleted
with `Namespace.Delete`; rollback failures are logged and never returned. -/
def rollback (cfg : ConfigYAML) (w : World) (undo : List Undo) : World :=
  let w1 := undoAll cfg w undo
  let r := (NewNamespace cfg.Name).Delete w1.clientset
  { w1 with clientset := r.2, logs := logRollbackFailure w1.logs "error deleting namespace" r.1 }

/-- The next draw of the source of randomness (0 once the draws are used up). -/
def drawRandom (random : List Nat) : Nat × List Nat :=
  match random with
  | [] => (0, [])
  | r :: rest => (r, rest)

/-- Modelled from the spec: provisioning of one room, whose body is not in the
sources.  Section 4.1, step 2: allocate node ports for every declared container
port, build the environment, create the platform workload and a matching
network-service object, and register the room in the room status index under
status "creating".  The first failure stops the room; the steps completed so
far are pushed on `undo`. -/
def provisionRoom (cfg : ConfigYAML) (w : World) (undo : List Undo) :
    Option GoError × World × List Undo :=
  let d := drawRandom w.random
  let room := roomName cfg.Name d.1
  let a := allocateNodePorts w.clientset cfg.Ports
  let p := a.2.PodsCreate cfg.Name (roomPod cfg room a.1)
  match p.1 with
  | some err => (some err, { w with clientset := p.2, random := d.2 }, undo)
  | none =>
    let undo1 := Undo.pod room :: undo
    let s := p.2.ServicesCreate cfg.Name (roomService cfg room a.1)
    match s.1 with
    | some err => (some err, { w with clientset := s.2, random := d.2 }, undo1)
    | none =>
      let undo2 := Undo.service room :: undo1
      let g := registerRoom w.redis cfg.Name room
      match g.1 with
      | some err => (some err, { w with clientset := s.2, redis := g.2, random := d.2 }, undo2)
      | none =>
        (none, { w with clientset := s.2, redis := g.2, random := d.2 },
          Undo.roomIndex room :: undo2)

/-- Modelled from the spec: provisioning of `count` rooms (section 4.1, step 2),
one after the other, stopping at the first failure. -/
def provisionRooms (cfg : ConfigYAML) : Nat → World → List Undo →
    Option GoError × World × List Undo
  | 0, w, undo => (none, w, undo)
  | count + 1, w, undo =>
    let r := provisionRoom cfg w undo
    match r.1 with
    | some err => (some err, r.2.1, r.2.2)
    | none => provisionRooms cfg count r.2.1 r.2.2

/-- Modelled from the spec: `controller.CreateScheduler`, whose body is not in
the sources (only its tests and its caller are).  Section 4.1:
1. create the namespace named after the scheduler with `Namespace.Create`; a
   failure, an existing namespace included, is fatal;
2. provision `autoscaling.min` rooms;
3. insert the scheduler record, then read it back by name;
4. any failure tears down everything created in this invocation (after a
   failure of step 1 that is nothing) and returns the error that caused it. -/
def CreateScheduler (cfg : ConfigYAML) (w : World) : Option GoError × World :=
  let c := (NewNamespace cfg.Name).Create w.clientset
  match c.1 with
  | some err => (some err, { w with clientset := c.2 })
  | none =>
    let p := provisionRooms cfg cfg.AutoScaling.Min { w with clientset := c.2 } []
    match p.1 with
    | some err => (some err, rollback cfg p.2.1 p.2.2)
    | none =>
      let i := p.2.1.db.Insert cfg.Name cfg.Game cfg
      match i.1 with
      | some err => (some err, rollback cfg { p.2.1 with db := i.2 } p.2.2)
      | none =>
        let q := i.2.QueryByName cfg.Name
        match q.1 with
        | Except.error err => (some err, rollback cfg { p.2.1 with db := q.2 } p.2.2)
        | Except.ok _ => (none, { p.2.1 with db := q.2 })

/-- The namespace object `o` holds exactly the workloads and services of `count`
rooms provisioned for `cfg`, no two of them under one name. -/
def RoomsProvisioned (cfg : ConfigYAML) (count : Nat) (o : NamespaceObject) : Prop :=
  o.Pods.length = count ∧ o.Services.length = count ∧
  (o.Pods.map Pod.Name).Nodup ∧ (o.Services.map Service.Name).Nodup ∧
  (∀ p ∈ o.Pods, ∃ r nodePorts, p = roomPod cfg (roomName cfg.Name r) nodePorts) ∧
  (∀ s ∈ o.Services, ∃ r nodePorts, s = roomService cfg (roomName cfg.Name r) nodePorts)

/-- Every workload and every service the namespace object holds has its delete
step on the undo stack. -/
def UndoCovers (undo : List Undo) (o : NamespaceObject) : Prop :=
  (∀ p ∈ o.Pods, Undo.pod p.Name ∈ undo) ∧ (∀ s ∈ o.Services, Undo.service s.Name ∈ undo)

/-! ## Fixtures -/

/-- A controller over a counter of store mutations: every collaborator call
adds one to the counter; `NewRedisClient` answers `redisErr` and the three
controller operations answer `res`. -/
def countingController (redisErr res : Option GoError) : Controller Nat :=
  { NewRedisClient := fun n => (redisErr, n + 1),
    CreateScheduler := fun _ _ n => (res, n + 1),
    DeleteScheduler := fun _ _ n => (res, n + 1),
    UpdateSchedulerConfig := fun _ _ _ _ n => (res, n + 1) }

/-- An application around `countingController`. -/
def countingApp (redisErr res : Option GoError) : App Nat :=
  { Config := { scaleUpTimeoutSeconds := 300, deleteTimeoutSeconds := 150,
                updateTimeoutSeconds := 300, watcherLockTimeoutMs := 180000,
                watcherLockKey := "maestro-lock-key" },
    controller := countingController redisErr res }

/-- The specification `yaml1` of `controller_test.go`. -/
def yaml1 : ConfigYAML :=
  { Name := "controller-name", Game := "controller", Image := "controller/controller:v123",
    Ports := [⟨1234, "UDP", "port1"⟩, ⟨7654, "TCP", "port2"⟩],
    Limits := ⟨"66Mi", "2"⟩, ShutdownTimeout := 20,
    AutoScaling := { Min := 3, Up := ⟨2, ⟨60, 100⟩, 200⟩, Down := ⟨1, ⟨30, 500⟩, 500⟩ },
    Env := [⟨"MY_ENV_VAR", "myvalue"⟩], Cmd := ["./room"] }

/-- An update request whose URL names another scheduler than its payload. -/
def mismatchedRequest : Request := { SchedulerName := "other-name", payload := yaml1 }

/-- A request whose URL names the scheduler of its payload. -/
def matchingRequest : Request := { SchedulerName := "controller-name", payload := yaml1 }

/-- The empty key-value store with a reliable transport. -/
def Redis.fresh : Redis := { hashes := [], sets := [], faults := [] }

/-- The empty relational store with a reliable transport. -/
def DB.fresh : DB := { schedulers := [], faults := [], nextID := 1 }

/-- A world of fresh back-ends with the given random draws to come. -/
def World.fresh (random : List Nat) : World :=
  { clientset := Clientset.fresh, db := DB.fresh, redis := Redis.fresh,
    random := random, logs := [] }

/-- The world of test "should rollback if error in db occurs": fresh back-ends,
the relational store failing its next query with `Some error in db`. -/
def dbFailingWorld : World :=
  { World.fresh [1, 2, 3] with
    db := { DB.fresh with faults := [some (errorsNew "Some error in db")] } }

/-- As `dbFailingWorld`, on a platform whose fifteenth request, the delete of the
namespace during rollback, fails in transport. -/
def rollbackFailingWorld : World :=
  { dbFailingWorld with
    clientset := { Clientset.fresh with
      faults := List.replicate 14 none ++ [some (errorsNew "connection reset")] } }

/-- A platform holding the namespace `controller-name` whose next request fails
in transport. -/
def unreachablePlatform : Clientset :=
  { namespaces := [⟨"controller-name", [], []⟩],
    faults := [some (errorsNew "connection refused")],
    calls := [], nextNodePort := 30000 }

/-- A platform holding the namespace `controller-name` whose lookups go through
and whose delete requests fail in transport, twice in a row. -/
def stubbornPlatform : Clientset :=
  { namespaces := [⟨"controller-name", [], []⟩],
    faults := [none, some (errorsNew "timeout"), none, some (errorsNew "timeout")],
    calls := [], nextNodePort := 30000 }

set_option maxRecDepth 100000

/-! ## The handlers -/

/-- C1: an update request whose URL scheduler name differs from the payload name
is answered by exactly one `HandleError` call with status 400 carrying a
`ValidationFailedError`; the handler has then called neither `redis.NewClient`
nor `controller.UpdateSchedulerConfig`, and the state of the back-ends is the
one it started from, whatever those collaborators would have done. -/
theorem update_name_mismatch_rejected {σ : Type} (g : App σ) (r : Request) (s : σ)
    (h : r.SchedulerName ≠ r.payload.Name) :
    (SchedulerUpdateHandler.ServeHTTP g r s).responses =
        [Response.handleError 400 "Update scheduler failed"
          (NewValidationFailedError
            (errorsNew (nameMismatchMsg r.SchedulerName r.payload.Name)))] ∧
      isValidationFailedError
          (NewValidationFailedError
            (errorsNew (nameMismatchMsg r.SchedulerName r.payload.Name))) = true ∧
      (SchedulerUpdateHandler.ServeHTTP g r s).calls = [] ∧
      (SchedulerUpdateHandler.ServeHTTP g r s).world = s := by
  simp [SchedulerUpdateHandler.ServeHTTP, h, StatusBadRequest, isValidationFailedError,
    NewValidationFailedError]

/-- Witness of C1 on a request for `other-name` carrying the payload of
`controller-name`, against a controller that would count a mutation per call. -/
theorem update_name_mismatch_rejected_witness :
    (SchedulerUpdateHandler.ServeHTTP (countingApp none none) mismatchedRequest 0).responses =
        [Response.handleError 400 "Update scheduler failed"
          (NewValidationFailedError
            (errorsNew (nameMismatchMsg "other-name" "controller-name")))] ∧
      (SchedulerUpdateHandler.ServeHTTP (countingApp none none) mismatchedRequest 0).calls = [] ∧
      (SchedulerUpdateHandler.ServeHTTP (countingApp none none) mismatchedRequest 0).world = 0 :=
  have h := update_name_mismatch_rejected (countingApp none none) mismatchedRequest 0
    (by decide)
  ⟨h.1, h.2.2.1, h.2.2.2⟩

/-- C3: once the names agree and the redis client was obtained, the update
handler answers a controller error `e` with exactly one `HandleError` call whose
status is 404 exactly when `e` is a `*ValidationFailedError` and 500 exactly
when it is anything else; and, over all requests, the handler writes the single
response 200 with body `{"success": true}` if and only if the controller was
reached and returned nil. -/
theorem update_status_follows_controller_error {σ : Type} (g : App σ) (r : Request) (s : σ) :
    (r.SchedulerName = r.payload.Name → (g.controller.NewRedisClient s).1 = none →
      ∀ e, (g.controller.UpdateSchedulerConfig r.payload g.Config.updateTimeoutSeconds
              g.Config.watcherLockTimeoutMs g.Config.watcherLockKey
              (g.controller.NewRedisClient s).2).1 = some e →
        (SchedulerUpdateHandler.ServeHTTP g r s).responses =
            [Response.handleError (updateErrorStatus e) "Update scheduler failed" e] ∧
          (updateErrorStatus e = 404 ↔ e.kind = ErrKind.validationFailed) ∧
          (updateErrorStatus e = 500 ↔ e.kind ≠ ErrKind.validationFailed)) ∧
      ((SchedulerUpdateHandler.ServeHTTP g r s).responses =
            [Response.write 200 successBody] ↔
        (r.SchedulerName = r.payload.Name ∧ (g.controller.NewRedisClient s).1 = none ∧
          (g.controller.UpdateSchedulerConfig r.payload g.Config.updateTimeoutSeconds
              g.Config.watcherLockTimeoutMs g.Config.watcherLockKey
              (g.controller.NewRedisClient s).2).1 = none)) ∧
      (SchedulerUpdateHandler.ServeHTTP g r s).responses.length = 1 := by
  refine ⟨?_, ?_, ?_⟩
  · intro hname hredis e he
    refine ⟨?_, ?_, ?_⟩
    · simp [SchedulerUpdateHandler.ServeHTTP, hname, hredis, he, WithSegment]
    · by_cases hk : e.kind = ErrKind.validationFailed <;>
        simp [updateErrorStatus, isValidationFailedError, hk, StatusNotFound,
          StatusInternalServerError]
    · by_cases hk : e.kind = ErrKind.validationFailed <;>
        simp [updateErrorStatus, isValidationFailedError, hk, StatusNotFound,
          StatusInternalServerError]
  · by_cases hname : r.SchedulerName = r.payload.Name
    · cases hredis : (g.controller.NewRedisClient s).1 with
      | some e0 =>
        simp [SchedulerUpdateHandler.ServeHTTP, hname, hredis]
      | none =>
        cases hres : (g.controller.UpdateSchedulerConfig r.payload g.Config.updateTimeoutSeconds
              g.Config.watcherLockTimeoutMs g.Config.watcherLockKey
              (g.controller.NewRedisClient s).2).1 with
        | some e =>
          simp [SchedulerUpdateHandler.ServeHTTP, hname, hredis, hres, WithSegment]
        | none =>
          simp [SchedulerUpdateHandler.ServeHTTP, hname, hredis, hres, WithSegment, StatusOK]
    · simp [SchedulerUpdateHandler.ServeHTTP, hname]
  · by_cases hname : r.SchedulerName = r.payload.Name
    · cases hredis : (g.controller.NewRedisClient s).1 with
      | some e0 =>
        simp [SchedulerUpdateHandler.ServeHTTP, hname, hredis]
      | none =>
        cases hres : (g.controller.UpdateSchedulerConfig r.payload g.Config.updateTimeoutSeconds
              g.Config.watcherLockTimeoutMs g.Config.watcherLockKey
              (g.controller.NewRedisClient s).2).1 with
        | some e =>
          simp [SchedulerUpdateHandler.ServeHTTP, hname, hredis, hres, WithSegment]
        | none =>
          simp [SchedulerUpdateHandler.ServeHTTP, hname, hredis, hres, WithSegment]
    · simp [SchedulerUpdateHandler.ServeHTTP, hname]

/-- Witness of C3: a lock-contention error of the controller is answered 404, a
store error 500. -/
theorem update_status_follows_controller_error_witness :
    (SchedulerUpdateHandler.ServeHTTP
        (countingApp none (some ⟨ErrKind.validationFailed, "error getting lock"⟩))
        matchingRequest 0).responses =
      [Response.handleError 404 "Update scheduler failed"
        ⟨ErrKind.validationFailed, "error getting lock"⟩] ∧
    (SchedulerUpdateHandler.ServeHTTP
        (countingApp none (some (errorsNew "Some error in db")))
        matchingRequest 0).responses =
      [Response.handleError 500 "Update scheduler failed" (errorsNew "Some error in db")] :=
  ⟨((update_status_follows_controller_error
        (countingApp none (some ⟨ErrKind.validationFailed, "error getting lock"⟩))
        matchingRequest 0).1 rfl rfl _ rfl).1,
   ((update_status_follows_controller_error
        (countingApp none (some (errorsNew "Some error in db")))
        matchingRequest 0).1 rfl rfl _ rfl).1⟩

/-- C9: the create and the delete handler write exactly one response, fixed by
the result of the controller alone: an error `e`, of whatever kind, gives the
single call `HandleError(w, 500, .., e)` and no success body; nil gives the
single write of `{"success": true}`, with status 201 for create and 200 for
delete. -/
theorem create_delete_response_follows_controller {σ : Type} (g : App σ) (r : Request) (s : σ) :
    (∀ e, (g.controller.CreateScheduler r.payload g.Config.scaleUpTimeoutSeconds s).1 = some e →
        (SchedulerCreateHandler.ServeHTTP g r s).responses =
          [Response.handleError 500 "Create scheduler failed" e]) ∧
      ((g.controller.CreateScheduler r.payload g.Config.scaleUpTimeoutSeconds s).1 = none →
        (SchedulerCreateHandler.ServeHTTP g r s).responses =
          [Response.write 201 successBody]) ∧
      (∀ e, (g.controller.DeleteScheduler r.SchedulerName g.Config.deleteTimeoutSeconds s).1
            = some e →
        (SchedulerDeleteHandler.ServeHTTP g r s).responses =
          [Response.handleError 500 "Delete scheduler failed" e]) ∧
      ((g.controller.DeleteScheduler r.SchedulerName g.Config.deleteTimeoutSeconds s).1 = none →
        (SchedulerDeleteHandler.ServeHTTP g r s).responses =
          [Response.write 200 successBody]) ∧
      (SchedulerCreateHandler.ServeHTTP g r s).responses.length = 1 ∧
      (SchedulerDeleteHandler.ServeHTTP g r s).responses.length = 1 := by
  refine ⟨?_, ?_, ?_, ?_, ?_, ?_⟩
  · intro e he
    simp [SchedulerCreateHandler.ServeHTTP, he, WithSegment, StatusInternalServerError]
  · intro he
    simp [SchedulerCreateHandler.ServeHTTP, he, WithSegment, StatusCreated]
  · intro e he
    simp [SchedulerDeleteHandler.ServeHTTP, he, WithSegment, StatusInternalServerError]
  · intro he
    simp [SchedulerDeleteHandler.ServeHTTP, he, WithSegment, StatusOK]
  · cases he : (g.controller.CreateScheduler r.payload g.Config.scaleUpTimeoutSeconds s).1 <;>
      simp [SchedulerCreateHandler.ServeHTTP, he, WithSegment]
  · cases he : (g.controller.DeleteScheduler r.SchedulerName g.Config.deleteTimeoutSeconds s).1 <;>
      simp [SchedulerDeleteHandler.ServeHTTP, he, WithSegment]

/-- Witness of C9: a validation error of the controller is still answered 500 by
the create handler, and nil is answered 201. -/
theorem create_delete_response_follows_controller_witness :
    (SchedulerCreateHandler.ServeHTTP
        (countingApp none (some ⟨ErrKind.validationFailed, "invalid"⟩))
        matchingRequest 0).responses =
      [Response.handleError 500 "Create scheduler failed" ⟨ErrKind.validationFailed, "invalid"⟩] ∧
    (SchedulerCreateHandler.ServeHTTP (countingApp none none) matchingRequest 0).responses =
      [Response.write 201 successBody] ∧
    (SchedulerDeleteHandler.ServeHTTP (countingApp none none) matchingRequest 0).responses =
      [Response.write 200 successBody] :=
  ⟨(create_delete_response_follows_controller
        (countingApp none (some ⟨ErrKind.validationFailed, "invalid"⟩))
        matchingRequest 0).1 _ rfl,
   (create_delete_response_follows_controller (countingApp none none) matchingRequest 0).2.1 rfl,
   (create_delete_response_follows_controller
        (countingApp none none) matchingRequest 0).2.2.2.1 rfl⟩

/-! ## The platform requests: what they leave untouched -/

theorem enter_namespaces (c : Clientset) (call : KubeCall) :
    (c.enter call).2.namespaces = c.namespaces := by
  unfold Clientset.enter
  cases c.faults <;> rfl

theorem enter_calls (c : Clientset) (call : KubeCall) :
    (c.enter call).2.calls = c.calls ++ [call] := by
  unfold Clientset.enter
  cases c.faults <;> rfl

theorem enter_findNamespace (c : Clientset) (call : KubeCall) (n : String) :
    (c.enter call).2.findNamespace n = c.findNamespace n := by
  unfold Clientset.findNamespace
  rw [enter_namespaces]

theorem enter_reliable (c : Clientset) (call : KubeCall) (h : c.reliable) :
    (c.enter call).1 = none ∧ (c.enter call).2.reliable := by
  unfold Clientset.enter
  cases hf : c.faults with
  | nil => exact ⟨rfl, by simp [Clientset.reliable, hf]⟩
  | cons f rest =>
    have hr : ∀ x ∈ f :: rest, x = none := by simpa [Clientset.reliable, hf] using h
    refine ⟨hr f (List.mem_cons_self _ _), ?_⟩
    intro x hx
    exact hr x (List.mem_cons_of_mem _ hx)

theorem findNamespace_eq_none_iff (c : Clientset) (n : String) :
    c.findNamespace n = none ↔ ∀ o ∈ c.namespaces, o.Name ≠ n := by
  simp [Clientset.findNamespace, List.find?_eq_none]

theorem namespacesGet_state (c : Clientset) (n : String) :
    (c.NamespacesGet n).2 = (c.enter (KubeCall.namespacesGet n)).2 := by
  unfold Clientset.NamespacesGet
  rcases h : c.enter (KubeCall.namespacesGet n) with ⟨f, c1⟩
  cases f with
  | some e => rfl
  | none =>
    simp only []
    cases c1.findNamespace n <;> rfl

theorem exists_state (c : Clientset) (n : String) :
    ((NewNamespace n).Exists c).2 = (c.enter (KubeCall.namespacesGet n)).2 := by
  unfold Namespace.Exists
  simp only [NewNamespace]
  rw [← namespacesGet_state]
  cases (c.NamespacesGet n).1 <;> rfl

theorem exists_false_of_get_error (c : Clientset) (n : String) (e : GoError)
    (h : (c.NamespacesGet n).1 = Except.error e) : ((NewNamespace n).Exists c).1 = false := by
  unfold Namespace.Exists
  simp only [NewNamespace]
  rw [h]

theorem namespacesGet_error_of_absent (c : Clientset) (n : String)
    (h : c.findNamespace n = none) : ∃ e, (c.NamespacesGet n).1 = Except.error e := by
  unfold Clientset.NamespacesGet
  have hf := enter_findNamespace c (KubeCall.namespacesGet n) n
  rcases hc : c.enter (KubeCall.namespacesGet n) with ⟨f, c1⟩
  rw [hc] at hf
  cases f with
  | some e => exact ⟨e, rfl⟩
  | none =>
    simp only [] at hf ⊢
    rw [hf, h]
    exact ⟨_, rfl⟩

theorem delete_of_not_exists (c : Clientset) (n : String)
    (h : ((NewNamespace n).Exists c).1 = false) :
    (NewNamespace n).Delete c = (none, (c.enter (KubeCall.namespacesGet n)).2) := by
  unfold Namespace.Delete
  simp only [h, Bool.false_eq_true, if_false]
  rw [exists_state]

theorem delete_of_absent (c : Clientset) (n : String) (h : c.findNamespace n = none) :
    (NewNamespace n).Delete c = (none, (c.enter (KubeCall.namespacesGet n)).2) := by
  obtain ⟨e, he⟩ := namespacesGet_error_of_absent c n h
  exact delete_of_not_exists c n (exists_false_of_get_error c n e he)

theorem findNamespace_filter_ne (l : List NamespaceObject) (n : String) :
    (l.filter (fun o => decide (o.Name ≠ n))).find? (fun o => decide (o.Name = n)) = none := by
  simp [List.find?_eq_none]

theorem namespacesDelete_reliable (c : Clientset) (n : String) (h : c.reliable) :
    (c.NamespacesDelete n).2.findNamespace n = none ∧ (c.NamespacesDelete n).2.reliable := by
  unfold Clientset.NamespacesDelete
  have hr := enter_reliable c (KubeCall.namespacesDelete n) h
  rcases hc : c.enter (KubeCall.namespacesDelete n) with ⟨f, c1⟩
  rw [hc] at hr
  simp only [] at hr
  obtain ⟨hf, hrel⟩ := hr
  subst hf
  simp only []
  cases hfind : c1.findNamespace n with
  | none => exact ⟨hfind, hrel⟩
  | some o =>
    simp only []
    exact ⟨findNamespace_filter_ne _ _, hrel⟩

theorem delete_reliable (c : Clientset) (n : String) (h : c.reliable) :
    ((NewNamespace n).Delete c).2.findNamespace n = none ∧
      ((NewNamespace n).Delete c).2.reliable := by
  have hr := enter_reliable c (KubeCall.namespacesGet n) h
  cases hex : ((NewNamespace n).Exists c).1 with
  | false =>
    rw [delete_of_not_exists c n hex]
    refine ⟨?_, hr.2⟩
    rw [enter_findNamespace]
    -- the lookup went through, so it failed for want of the namespace
    unfold Namespace.Exists Clientset.NamespacesGet at hex
    simp only [NewNamespace] at hex
    have hf := enter_findNamespace c (KubeCall.namespacesGet n) n
    rcases hc : c.enter (KubeCall.namespacesGet n) with ⟨f, c1⟩
    rw [hc] at hex hf hr
    simp only [] at hr hf
    obtain ⟨hnone, -⟩ := hr
    subst hnone
    simp only [] at hex
    cases hfind : c1.findNamespace n with
    | none => rw [← hf, hfind]
    | some o => rw [hfind] at hex; simp at hex
  | true =>
    unfold Namespace.Delete
    simp only [hex, if_true]
    rw [exists_state]
    exact namespacesDelete_reliable _ n hr.2

/-! ## `Namespace.Delete` and `Namespace.Exists` -/

/-- C2: on every platform (whatever its transport does) and every name `n` under
which no namespace exists, `Namespace.Delete` returns nil, sends the lookup and
no delete request, and leaves the stored namespaces as they were; a second
`Delete` of the same name then returns nil again.  On a platform whose
transport does not fail, the second of two `Delete` calls in a row returns nil
from every state, the namespace present at first or not. -/
theorem delete_absent_namespace_is_nil (c : Clientset) (n : String) :
    ((∀ o ∈ c.namespaces, o.Name ≠ n) →
      ((NewNamespace n).Delete c).1 = none ∧
      ((NewNamespace n).Delete c).2.calls = c.calls ++ [KubeCall.namespacesGet n] ∧
      KubeCall.namespacesDelete n ∉ [KubeCall.namespacesGet n] ∧
      ((NewNamespace n).Delete c).2.namespaces = c.namespaces ∧
      ((NewNamespace n).Delete ((NewNamespace n).Delete c).2).1 = none ∧
      ((NewNamespace n).Delete ((NewNamespace n).Delete c).2).2.namespaces = c.namespaces) ∧
    (c.reliable → ((NewNamespace n).Delete ((NewNamespace n).Delete c).2).1 = none) := by
  constructor
  · intro h
    have habs : c.findNamespace n = none := (findNamespace_eq_none_iff c n).2 h
    have h1 := delete_of_absent c n habs
    have habs2 : (c.enter (KubeCall.namespacesGet n)).2.findNamespace n = none := by
      rw [enter_findNamespace]; exact habs
    have h2 := delete_of_absent _ n habs2
    rw [h1]
    simp only []
    rw [h2]
    simp only []
    refine ⟨trivial, enter_calls _ _, by simp, enter_namespaces _ _, trivial, ?_⟩
    rw [enter_namespaces, enter_namespaces]
  · intro h
    have h1 := delete_reliable c n h
    rw [delete_of_absent _ n h1.1]

/-- Witness of C2: deleting `ghost` on the fresh platform, and deleting
`controller-name` twice on a reliable platform that holds it. -/
theorem delete_absent_namespace_is_nil_witness :
    ((NewNamespace "ghost").Delete Clientset.fresh).1 = none ∧
    ((NewNamespace "ghost").Delete Clientset.fresh).2.calls = [KubeCall.namespacesGet "ghost"] ∧
    ((NewNamespace "ghost").Delete Clientset.fresh).2.namespaces = [] ∧
    ((NewNamespace "ghost").Delete ((NewNamespace "ghost").Delete Clientset.fresh).2).1 = none :=
  have h := (delete_absent_namespace_is_nil Clientset.fresh "ghost").1
    (by intro o ho; simp [Clientset.fresh] at ho)
  ⟨h.1, h.2.1, h.2.2.2.1, h.2.2.2.2.1⟩

/-- C10: `Namespace.Delete` returns an error `e` only when the lookup succeeded
(`Exists` answered true) and the delete request itself returned `e`, which is
passed on unchanged.  When the lookup fails, for want of the namespace or in
transport alike, `Exists` answers false, `Delete` returns nil, and the lookup
is the only request sent.  So a namespace that exists behind a failing lookup
is still there after `Delete` reported success. -/
theorem delete_error_only_from_delete_request (c : Clientset) (n : String) :
    (∀ e, ((NewNamespace n).Delete c).1 = some e →
      ((NewNamespace n).Exists c).1 = true ∧
      (((NewNamespace n).Exists c).2.NamespacesDelete n).1 = some e) ∧
    (∀ e, (c.NamespacesGet n).1 = Except.error e →
      ((NewNamespace n).Exists c).1 = false ∧
      ((NewNamespace n).Delete c).1 = none ∧
      ((NewNamespace n).Delete c).2.calls = c.calls ++ [KubeCall.namespacesGet n] ∧
      ((NewNamespace n).Delete c).2.namespaces = c.namespaces) ∧
    (∀ e rest o, c.faults = some e :: rest → c.findNamespace n = some o →
      ((NewNamespace n).Exists c).1 = false ∧
      ((NewNamespace n).Delete c).1 = none ∧
      ((NewNamespace n).Delete c).2.findNamespace n = some o ∧
      KubeCall.namespacesDelete n ∉ ((NewNamespace n).Delete c).2.calls.drop c.calls.length) := by
  have hgen : ∀ e, (c.NamespacesGet n).1 = Except.error e →
      ((NewNamespace n).Exists c).1 = false ∧
      (NewNamespace n).Delete c = (none, (c.enter (KubeCall.namespacesGet n)).2) := by
    intro e he
    have hex := exists_false_of_get_error c n e he
    exact ⟨hex, delete_of_not_exists c n hex⟩
  refine ⟨?_, ?_, ?_⟩
  · intro e he
    cases hex : ((NewNamespace n).Exists c).1 with
    | false =>
      rw [delete_of_not_exists c n hex] at he
      simp at he
    | true =>
      unfold Namespace.Delete at he
      simp only [hex, if_true] at he
      exact ⟨rfl, he⟩
  · intro e he
    obtain ⟨hex, hdel⟩ := hgen e he
    rw [hdel]
    exact ⟨hex, rfl, enter_calls _ _, enter_namespaces _ _⟩
  · intro e rest o hf ho
    have hget : (c.NamespacesGet n).1 = Except.error e := by
      simp [Clientset.NamespacesGet, Clientset.enter, hf]
    obtain ⟨hex, hdel⟩ := hgen e hget
    rw [hdel]
    refine ⟨hex, rfl, ?_, ?_⟩
    · simp only []
      rw [enter_findNamespace]; exact ho
    · simp only []
      rw [enter_calls]
      simp

/-- Witness of C10: the namespace `controller-name` behind a refused connection
survives a `Delete` that returns nil. -/
theorem delete_error_only_from_delete_request_witness :
    ((NewNamespace "controller-name").Exists unreachablePlatform).1 = false ∧
    ((NewNamespace "controller-name").Delete unreachablePlatform).1 = none ∧
    ((NewNamespace "controller-name").Delete unreachablePlatform).2.findNamespace
        "controller-name" = some ⟨"controller-name", [], []⟩ :=
  have h := (delete_error_only_from_delete_request unreachablePlatform "controller-name").2.2
    (errorsNew "connection refused") [] ⟨"controller-name", [], []⟩ rfl (by decide)
  ⟨h.1, h.2.1, h.2.2.1⟩

/-- C8, evaluated where the code departs from it: on a platform that holds
`controller-name` but whose lookup fails in transport, `Exists` answers false;
`Exists` also answers false right after a `Create` that succeeded, and `Delete`
returns nil while the namespace stays listed. -/
theorem exists_false_for_existing_namespace :
    unreachablePlatform.findNamespace "controller-name" = some ⟨"controller-name", [], []⟩ ∧
    ((NewNamespace "controller-name").Exists unreachablePlatform).1 = false ∧
    ((NewNamespace "controller-name").Create
        { Clientset.fresh with faults := [none, some (errorsNew "connection refused")] }).1
      = none ∧
    ((NewNamespace "controller-name").Exists
        ((NewNamespace "controller-name").Create
          { Clientset.fresh with
            faults := [none, some (errorsNew "connection refused")] }).2).1 = false ∧
    ((NewNamespace "controller-name").Delete unreachablePlatform).1 = none ∧
    ((NewNamespace "controller-name").Delete unreachablePlatform).2.namespaces =
      [⟨"controller-name", [], []⟩] := by
  decide

/-- On a platform whose delete requests keep failing, the second of two `Delete`
calls in a row returns the error of its own delete request. -/
theorem second_delete_fails_on_stubborn_platform :
    ((NewNamespace "controller-name").Delete
        ((NewNamespace "controller-name").Delete stubbornPlatform).2).1 =
      some (errorsNew "timeout") := by
  decide

/-! ## Decimal strings: reading back what was written -/

theorem parseDigit_digitChar : ∀ d, d < 10 → parseDigit (digitChar d) = some d := by
  decide

theorem parseDigits_append (xs : List Char) (c : Char) (acc : Nat) :
    parseDigits acc (xs ++ [c]) =
      (parseDigits acc xs).bind (fun a => (parseDigit c).map (fun d => a * 10 + d)) := by
  induction xs generalizing acc with
  | nil =>
    simp only [List.nil_append, parseDigits, Option.some_bind]
    cases parseDigit c <;> rfl
  | cons x xs ih =>
    simp only [List.cons_append, parseDigits]
    cases parseDigit x with
    | none => rfl
    | some d => exact ih _

theorem parseDigits_decimalDigits (fuel n : Nat) (h : n < fuel) :
    parseDigits 0 (decimalDigits fuel n) = some n := by
  induction fuel generalizing n with
  | zero => omega
  | succ fuel ih =>
    unfold decimalDigits
    by_cases hn : n < 10
    · simp only [hn, if_true, parseDigits, parseDigit_digitChar n hn]
      simp
    · simp only [hn, if_false]
      have hlt : n / 10 < fuel := by omega
      rw [parseDigits_append, ih _ hlt, parseDigit_digitChar _ (Nat.mod_lt _ (by norm_num))]
      simp only [Option.some_bind, Option.map_some']
      congr 1
      omega

theorem decimalDigits_head (fuel n : Nat) :
    ∃ c cs, decimalDigits (fuel + 1) n = c :: cs ∧ ∃ d, parseDigit c = some d := by
  induction fuel generalizing n with
  | zero =>
    unfold decimalDigits
    by_cases hn : n < 10
    · exact ⟨_, [], by simp [hn], n, parseDigit_digitChar n hn⟩
    · exact ⟨digitChar (n % 10), [], by simp [hn, decimalDigits], n % 10,
        parseDigit_digitChar _ (Nat.mod_lt _ (by norm_num))⟩
  | succ fuel ih =>
    unfold decimalDigits
    by_cases hn : n < 10
    · exact ⟨_, [], by simp [hn], n, parseDigit_digitChar n hn⟩
    · obtain ⟨c, cs, hcs, hd⟩ := ih (n / 10)
      exact ⟨c, cs ++ [digitChar (n % 10)], by simp [hn, hcs], hd⟩

theorem parseInt_formatInt (i : Int) (h : isInt64 i) : ParseInt (FormatInt i) = Except.ok i := by
  obtain ⟨hlo, hhi⟩ := h
  cases i with
  | ofNat n =>
    obtain ⟨c, cs, hcs, d, hd⟩ := decimalDigits_head n n
    have hp := parseDigits_decimalDigits (n + 1) n (Nat.lt_succ_self n)
    have hminus : c ≠ '-' := by
      intro hc
      have hnone : parseDigit '-' = none := by decide
      rw [hc, hnone] at hd
      cases hd
    have hplus : c ≠ '+' := by
      intro hc
      have hnone : parseDigit '+' = none := by decide
      rw [hc, hnone] at hd
      cases hd
    have hn : n < 2 ^ 63 := by
      have : ((n : Nat) : Int) < 2 ^ 63 := hhi
      exact_mod_cast this
    unfold ParseInt FormatInt
    simp only [hcs]
    rw [if_neg hminus, if_neg hplus, ← hcs, hp]
    simp only [hn, if_true]
    rfl
  | negSucc n =>
    obtain ⟨c, cs, hcs, -⟩ := decimalDigits_head (n + 1) (n + 1)
    have hp := parseDigits_decimalDigits (n + 2) (n + 1) (Nat.lt_succ_self _)
    have hn : n + 1 ≤ 2 ^ 63 := by
      have h1 : -(2 ^ 63 : Int) ≤ Int.negSucc n := hlo
      rw [Int.negSucc_eq] at h1
      have h2 : ((n : Int) + 1) ≤ 2 ^ 63 := by linarith
      exact_mod_cast h2
    unfold ParseInt FormatInt
    simp only [if_true]
    rw [hcs]
    simp only []
    rw [← hcs, hp]
    simp only [hn, if_true]
    rw [Int.negSucc_eq]
    push_cast
    rfl

/-! ## Runtime state: save, then get -/

theorem redis_enter_hashes (r : Redis) : r.enter.2.hashes = r.hashes := by
  unfold Redis.enter
  cases r.faults <;> rfl

theorem hashAt_putHash (r : Redis) (key : String) (fields : List (String × String)) :
    (r.putHash key fields).hashAt key = hashWrite (r.hashAt key) fields := by
  simp [Redis.putHash, Redis.hashAt, List.lookup]

theorem fieldOf_stateFields (old : List (String × String)) (st : SchedulerState) :
    fieldOf (hashWrite old (stateFields st)) "state" = st.State ∧
    fieldOf (hashWrite old (stateFields st)) "lastChangedAt" = FormatInt st.LastChangedAt ∧
    fieldOf (hashWrite old (stateFields st)) "lastScaleOpAt" = FormatInt st.LastScaleOpAt := by
  refine ⟨?_, ?_, ?_⟩ <;>
    simp [fieldOf, hashWrite, stateFields, List.lookup]

/-- C7: when `SaveSchedulerStateInfo` succeeds for a record (name, state and two
`int64` unix-second timestamps) and the read of the following
`GetSchedulerStateInfo` for the same name goes through, the hash under the
scheduler name holds the three fields `state`, `lastChangedAt` and
`lastScaleOpAt`, the timestamps in decimal form, and `GetSchedulerStateInfo`
returns a record equal to the saved one in name, state and both timestamps. -/
theorem save_then_get_state_info (redis : Redis) (name state : String) (changed scaled : Int)
    (hc : isInt64 changed) (hs : isInt64 scaled)
    (hsave : (SaveSchedulerStateInfo redis (NewSchedulerState name state changed scaled)).1
      = none)
    (hread : (SaveSchedulerStateInfo redis
      (NewSchedulerState name state changed scaled)).2.enter.1 = none) :
    fieldOf ((SaveSchedulerStateInfo redis
        (NewSchedulerState name state changed scaled)).2.hashAt name) "state" = state ∧
    fieldOf ((SaveSchedulerStateInfo redis
        (NewSchedulerState name state changed scaled)).2.hashAt name) "lastChangedAt"
      = FormatInt changed ∧
    fieldOf ((SaveSchedulerStateInfo redis
        (NewSchedulerState name state changed scaled)).2.hashAt name) "lastScaleOpAt"
      = FormatInt scaled ∧
    (GetSchedulerStateInfo (SaveSchedulerStateInfo redis
        (NewSchedulerState name state changed scaled)).2 name).1 =
      Except.ok (NewSchedulerState name state changed scaled) := by
  have hstate : (SaveSchedulerStateInfo redis (NewSchedulerState name state changed scaled)).2
      = redis.enter.2.putHash name
          (stateFields (NewSchedulerState name state changed scaled)) := by
    unfold SaveSchedulerStateInfo Redis.HMSet at hsave ⊢
    rcases he : redis.enter with ⟨f, r1⟩
    rw [he] at hsave
    cases f with
    | some e => simp at hsave
    | none => rfl
  rw [hstate] at hread ⊢
  have hf := fieldOf_stateFields (redis.enter.2.hashAt name)
    (NewSchedulerState name state changed scaled)
  rw [hashAt_putHash]
  refine ⟨hf.1, hf.2.1, hf.2.2, ?_⟩
  unfold GetSchedulerStateInfo Redis.HGetAll
  have hh := redis_enter_hashes (redis.enter.2.putHash name
    (stateFields (NewSchedulerState name state changed scaled)))
  rcases he : (redis.enter.2.putHash name
    (stateFields (NewSchedulerState name state changed scaled))).enter with ⟨f, r2⟩
  rw [he] at hread hh
  simp only [] at hread hh
  subst hread
  have hat : r2.hashAt name = hashWrite (redis.enter.2.hashAt name)
      (stateFields (NewSchedulerState name state changed scaled)) := by
    rw [← hashAt_putHash]
    unfold Redis.hashAt
    rw [hh]
  simp only [hat, hf.1, hf.2.1, hf.2.2]
  have e1 : ParseInt (FormatInt (NewSchedulerState name state changed scaled).LastChangedAt)
      = Except.ok changed := parseInt_formatInt changed hc
  have e2 : ParseInt (FormatInt (NewSchedulerState name state changed scaled).LastScaleOpAt)
      = Except.ok scaled := parseInt_formatInt scaled hs
  rw [e1, e2]
  rfl

/-- Witness of C7: the record of the test, `in-sync` with two timestamps, saved
to and read back from the empty store. -/
theorem save_then_get_state_info_witness :
    (GetSchedulerStateInfo (SaveSchedulerStateInfo Redis.fresh
        (NewSchedulerState "controller-name" "in-sync" 1500000000 (-7))).2
        "controller-name").1 =
      Except.ok (NewSchedulerState "controller-name" "in-sync" 1500000000 (-7)) :=
  (save_then_get_state_info Redis.fresh "controller-name" "in-sync" 1500000000 (-7)
    (by unfold isInt64; decide) (by unfold isInt64; decide) rfl rfl).2.2.2

/-! ## The object store under workload and service requests -/

theorem find_map_keeping_name (l : List NamespaceObject)
    (g : NamespaceObject → NamespaceObject) (m : String) (hg : ∀ o, (g o).Name = o.Name) :
    (l.map g).find? (fun o => decide (o.Name = m)) =
      (l.find? (fun o => decide (o.Name = m))).map g := by
  induction l with
  | nil => rfl
  | cons a l ih =>
    by_cases ha : a.Name = m
    · simp [List.find?_cons, hg, ha]
    · simp [List.find?_cons, hg, ha, ih]

theorem filter_map_keeping_name (l : List NamespaceObject)
    (g : NamespaceObject → NamespaceObject) (m : String) (hg : ∀ o, (g o).Name = o.Name) :
    ((l.map g).filter (fun o => decide (o.Name = m))).length =
      (l.filter (fun o => decide (o.Name = m))).length := by
  induction l with
  | nil => rfl
  | cons a l ih =>
    by_cases ha : a.Name = m
    · simp [List.filter_cons, hg, ha, ih]
    · simp [List.filter_cons, hg, ha, ih]

theorem findNamespace_name (k : Clientset) (ns : String) (o : NamespaceObject)
    (h : k.findNamespace ns = some o) : o.Name = ns := by
  unfold Clientset.findNamespace at h
  have := List.find?_some h
  simpa using this

theorem findNamespace_modify (k : Clientset) (ns : String)
    (f : NamespaceObject → NamespaceObject) (hf : ∀ o, (f o).Name = o.Name)
    (o : NamespaceObject) (h : k.findNamespace ns = some o) :
    (k.modifyNamespace ns f).findNamespace ns = some (f o) := by
  have hname := findNamespace_name k ns o h
  unfold Clientset.findNamespace Clientset.modifyNamespace at *
  simp only []
  rw [find_map_keeping_name _ _ _ (by intro a; by_cases ha : a.Name = ns <;> simp [ha, hf]), h]
  simp [hname]

theorem namespacesNamed_modify (k : Clientset) (ns m : String)
    (f : NamespaceObject → NamespaceObject) (hf : ∀ o, (f o).Name = o.Name) :
    ((k.modifyNamespace ns f).namespacesNamed m).length = (k.namespacesNamed m).length := by
  unfold Clientset.namespacesNamed Clientset.modifyNamespace
  simp only []
  exact filter_map_keeping_name _ _ _
    (by intro a; by_cases ha : a.Name = ns <;> simp [ha, hf])

theorem enter_namespacesNamed (c : Clientset) (call : KubeCall) (n : String) :
    (c.enter call).2.namespacesNamed n = c.namespacesNamed n := by
  unfold Clientset.namespacesNamed
  rw [enter_namespaces]

theorem podsCreate_ok (k : Clientset) (ns : String) (pod : Pod)
    (h : (k.PodsCreate ns pod).1 = none) :
    ∃ o, k.findNamespace ns = some o ∧ pod.Name ∉ o.Pods.map Pod.Name ∧
      (k.PodsCreate ns pod).2.findNamespace ns = some { o with Pods := o.Pods ++ [pod] } ∧
      ((k.PodsCreate ns pod).2.namespacesNamed ns).length = (k.namespacesNamed ns).length := by
  have hfind := enter_findNamespace k (KubeCall.podsCreate ns pod.Name) ns
  have hnamed := enter_namespacesNamed k (KubeCall.podsCreate ns pod.Name) ns
  unfold Clientset.PodsCreate at h ⊢
  rcases he : k.enter (KubeCall.podsCreate ns pod.Name) with ⟨f, k1⟩
  rw [he] at h hfind hnamed
  simp only [] at hfind hnamed
  cases f with
  | some e => simp at h
  | none =>
    simp only [] at h ⊢
    cases ho : k1.findNamespace ns with
    | none => rw [ho] at h; simp at h
    | some o =>
      rw [ho] at h
      simp only [] at h ⊢
      by_cases hmem : pod.Name ∈ o.Pods.map Pod.Name
      · rw [if_pos hmem] at h; simp at h
      · rw [if_neg hmem]
        simp only []
        refine ⟨o, hfind ▸ ho, hmem, ?_, ?_⟩
        · exact findNamespace_modify k1 ns (fun o => { o with Pods := o.Pods ++ [pod] })
            (fun _ => rfl) o ho
        · rw [namespacesNamed_modify k1 ns ns (fun o => { o with Pods := o.Pods ++ [pod] })
            (fun _ => rfl), hnamed]

theorem servicesCreate_ok (k : Clientset) (ns : String) (svc : Service)
    (h : (k.ServicesCreate ns svc).1 = none) :
    ∃ o, k.findNamespace ns = some o ∧ svc.Name ∉ o.Services.map Service.Name ∧
      (k.ServicesCreate ns svc).2.findNamespace ns =
        some { o with Services := o.Services ++ [svc] } ∧
      ((k.ServicesCreate ns svc).2.namespacesNamed ns).length = (k.namespacesNamed ns).length := by
  have hfind := enter_findNamespace k (KubeCall.servicesCreate ns svc.Name) ns
  have hnamed := enter_namespacesNamed k (KubeCall.servicesCreate ns svc.Name) ns
  unfold Clientset.ServicesCreate at h ⊢
  rcases he : k.enter (KubeCall.servicesCreate ns svc.Name) with ⟨f, k1⟩
  rw [he] at h hfind hnamed
  simp only [] at hfind hnamed
  cases f with
  | some e => simp at h
  | none =>
    simp only [] at h ⊢
    cases ho : k1.findNamespace ns with
    | none => rw [ho] at h; simp at h
    | some o =>
      rw [ho] at h
      simp only [] at h ⊢
      by_cases hmem : svc.Name ∈ o.Services.map Service.Name
      · rw [if_pos hmem] at h; simp at h
      · rw [if_neg hmem]
        simp only []
        refine ⟨o, hfind ▸ ho, hmem, ?_, ?_⟩
        · exact findNamespace_modify k1 ns
            (fun o => { o with Services := o.Services ++ [svc] }) (fun _ => rfl) o ho
        · rw [namespacesNamed_modify k1 ns ns
            (fun o => { o with Services := o.Services ++ [svc] }) (fun _ => rfl), hnamed]

theorem namespacesCreate_ok (k : Clientset) (n : String)
    (h : (k.NamespacesCreate n).1 = none) :
    (k.NamespacesCreate n).2.findNamespace n = some ⟨n, [], []⟩ ∧
      ((k.NamespacesCreate n).2.namespacesNamed n).length = 1 := by
  unfold Clientset.NamespacesCreate at h ⊢
  rcases he : k.enter (KubeCall.namespacesCreate n) with ⟨f, k1⟩
  cases f with
  | some e => rw [he] at h; simp at h
  | none =>
    rw [he] at h
    simp only [] at h ⊢
    cases ho : k1.findNamespace n with
    | some o => rw [ho] at h; simp at h
    | none =>
      simp only []
      have hnone : ∀ o ∈ k1.namespaces, o.Name ≠ n := (findNamespace_eq_none_iff k1 n).1 ho
      constructor
      · unfold Clientset.findNamespace at ho ⊢
        simp only [List.find?_append, ho]
        simp
      · unfold Clientset.namespacesNamed
        simp only [List.filter_append]
        have hfilter : k1.namespaces.filter (fun o => decide (o.Name = n)) = [] := by
          rw [List.filter_eq_nil_iff]
          intro o ho'
          simpa using hnone o ho'
        rw [hfilter]
        simp

/-! ## The namespace lifecycle on a reliable platform -/

theorem exists_iff_of_lookup_through (c : Clientset) (n : String)
    (h : (c.enter (KubeCall.namespacesGet n)).1 = none) :
    ((NewNamespace n).Exists c).1 = true ↔ ∃ o, c.findNamespace n = some o := by
  have hf := enter_findNamespace c (KubeCall.namespacesGet n) n
  unfold Namespace.Exists Clientset.NamespacesGet
  simp only [NewNamespace]
  rcases he : c.enter (KubeCall.namespacesGet n) with ⟨f, c1⟩
  rw [he] at h hf
  simp only [] at h hf
  subst h
  simp only []
  cases ho : c1.findNamespace n with
  | none => rw [← hf, ho]; simp
  | some o => rw [← hf, ho]; simp

theorem find_filter_other (l : List NamespaceObject) (n m : String) (h : m ≠ n) :
    (l.filter (fun o => decide (o.Name ≠ n))).find? (fun o => decide (o.Name = m)) =
      l.find? (fun o => decide (o.Name = m)) := by
  induction l with
  | nil => rfl
  | cons a l ih =>
    simp only [List.filter_cons]
    by_cases ha : a.Name = n
    · have hm : ¬ a.Name = m := fun hm => h (hm.symm.trans ha)
      have h1 : decide (a.Name ≠ n) = false := decide_eq_false (not_not.mpr ha)
      have h2 : decide (a.Name = m) = false := decide_eq_false hm
      rw [h1]
      simp only [Bool.false_eq_true, if_false]
      rw [List.find?_cons, h2]
      exact ih
    · have h1 : decide (a.Name ≠ n) = true := decide_eq_true ha
      rw [h1]
      simp only [if_true]
      rw [List.find?_cons, List.find?_cons]
      cases decide (a.Name = m)
      · exact ih
      · rfl

theorem namespacesDelete_other (c : Clientset) (n m : String) (h : m ≠ n) :
    (c.NamespacesDelete n).2.findNamespace m = c.findNamespace m := by
  have hf := enter_findNamespace c (KubeCall.namespacesDelete n) m
  unfold Clientset.NamespacesDelete
  rcases he : c.enter (KubeCall.namespacesDelete n) with ⟨f, c1⟩
  rw [he] at hf
  simp only [] at hf
  cases f with
  | some e => exact hf
  | none =>
    simp only []
    cases c1.findNamespace n with
    | none => exact hf
    | some o =>
      simp only []
      rw [← hf]
      exact find_filter_other c1.namespaces n m h

theorem delete_other (c : Clientset) (n m : String) (h : m ≠ n) :
    ((NewNamespace n).Delete c).2.findNamespace m = c.findNamespace m := by
  cases hex : ((NewNamespace n).Exists c).1 with
  | false => rw [delete_of_not_exists c n hex, enter_findNamespace]
  | true =>
    unfold Namespace.Delete
    simp only [hex, if_true]
    rw [exists_state]
    simp only [NewNamespace]
    rw [namespacesDelete_other _ n m h, enter_findNamespace]

theorem namespacesCreate_reliable (c : Clientset) (n : String) (h : c.reliable) :
    (c.NamespacesCreate n).2.reliable := by
  have hr := (enter_reliable c (KubeCall.namespacesCreate n) h).2
  unfold Clientset.NamespacesCreate
  rcases he : c.enter (KubeCall.namespacesCreate n) with ⟨f, c1⟩
  rw [he] at hr
  cases f with
  | some e => exact hr
  | none =>
    simp only []
    cases c1.findNamespace n with
    | none => exact hr
    | some o => exact hr

/-- The life of a namespace when the transport of the platform does not fail:
`Exists` answers true exactly for a stored namespace; it answers true after a `Create`
that succeeded; and after `Delete` the namespace is gone, `Exists` answers
false, and the namespaces under other names are the ones stored before. -/
theorem namespace_lifecycle_on_reliable_platform (c : Clientset) (n : String)
    (h : c.reliable) :
    (((NewNamespace n).Exists c).1 = true ↔ ∃ o, c.findNamespace n = some o) ∧
    (((NewNamespace n).Create c).1 = none →
      ((NewNamespace n).Exists ((NewNamespace n).Create c).2).1 = true) ∧
    ((NewNamespace n).Delete c).2.findNamespace n = none ∧
    ((NewNamespace n).Exists ((NewNamespace n).Delete c).2).1 = false ∧
    (∀ m, m ≠ n → ((NewNamespace n).Delete c).2.findNamespace m = c.findNamespace m) := by
  refine ⟨?_, ?_, ?_, ?_, ?_⟩
  · exact exists_iff_of_lookup_through c n (enter_reliable c _ h).1
  · intro hc
    have hrel := namespacesCreate_reliable c n h
    rw [show (NewNamespace n).Create c = c.NamespacesCreate n from rfl]
    rw [exists_iff_of_lookup_through _ n (enter_reliable _ _ hrel).1]
    exact ⟨_, (namespacesCreate_ok c n hc).1⟩
  · exact (delete_reliable c n h).1
  · have hd := delete_reliable c n h
    have hiff := exists_iff_of_lookup_through _ n (enter_reliable _ (KubeCall.namespacesGet n) hd.2).1
    cases hex : ((NewNamespace n).Exists ((NewNamespace n).Delete c).2).1 with
    | false => rfl
    | true =>
      obtain ⟨o, ho⟩ := hiff.1 hex
      rw [hd.1] at ho
      cases ho
  · intro m hm
    exact delete_other c n m hm

/-! ## Provisioning rooms -/

theorem provisionRoom_ok (cfg : ConfigYAML) (w : World) (undo : List Undo)
    (o : NamespaceObject) (count : Nat)
    (h : (provisionRoom cfg w undo).1 = none)
    (ho : w.clientset.findNamespace cfg.Name = some o)
    (hinv : RoomsProvisioned cfg count o) :
    ∃ o1, (provisionRoom cfg w undo).2.1.clientset.findNamespace cfg.Name = some o1 ∧
      RoomsProvisioned cfg (count + 1) o1 ∧
      ((provisionRoom cfg w undo).2.1.clientset.namespacesNamed cfg.Name).length =
        (w.clientset.namespacesNamed cfg.Name).length ∧
      (provisionRoom cfg w undo).2.1.db = w.db := by
  unfold provisionRoom at h ⊢
  simp only [] at h ⊢
  split at h
  · simp at h
  · rename_i hp
    split at h
    · simp at h
    · rename_i hs
      split at h
      · simp at h
      · rename_i hg
        simp only []
        obtain ⟨o0, ho0, hnew, hfind, hlen⟩ := podsCreate_ok _ _ _ hp
        obtain ⟨o2, ho2, hnew2, hfind2, hlen2⟩ := servicesCreate_ok _ _ _ hs
        have ho0' : o0 = o := by
          have : (allocateNodePorts w.clientset cfg.Ports).2.findNamespace cfg.Name
              = w.clientset.findNamespace cfg.Name := rfl
          rw [this, ho] at ho0
          exact (Option.some.inj ho0).symm
        subst ho0'
        rw [hfind] at ho2
        have ho2' := (Option.some.inj ho2).symm
        subst ho2'
        obtain ⟨hpl, hsl, hpn, hsn, hpods, hsvcs⟩ := hinv
        refine ⟨_, hfind2, ⟨?_, ?_, ?_, ?_, ?_, ?_⟩, ?_, trivial⟩
        · simp [hpl]
        · simp [hsl]
        · simp only [List.map_append, List.map_cons, List.map_nil]
          rw [List.nodup_append]
          refine ⟨hpn, List.nodup_singleton _, ?_⟩
          intro a ha hb
          rw [List.mem_singleton] at hb
          subst hb
          exact hnew ha
        · simp only [List.map_append, List.map_cons, List.map_nil]
          rw [List.nodup_append]
          refine ⟨hsn, List.nodup_singleton _, ?_⟩
          intro a ha hb
          rw [List.mem_singleton] at hb
          subst hb
          exact hnew2 ha
        · intro p hpmem
          simp only [List.mem_append, List.mem_singleton] at hpmem
          rcases hpmem with hpmem | hpmem
          · exact hpods p hpmem
          · exact ⟨_, _, hpmem⟩
        · intro s hsmem
          simp only [List.mem_append, List.mem_singleton] at hsmem
          rcases hsmem with hsmem | hsmem
          · exact hsvcs s hsmem
          · exact ⟨_, _, hsmem⟩
        · rw [hlen2, hlen]
          rfl

theorem provisionRooms_ok (cfg : ConfigYAML) : ∀ (m : Nat) (w : World) (undo : List Undo)
    (o : NamespaceObject) (count : Nat),
    (provisionRooms cfg m w undo).1 = none →
    w.clientset.findNamespace cfg.Name = some o →
    RoomsProvisioned cfg count o →
    ∃ o1, (provisionRooms cfg m w undo).2.1.clientset.findNamespace cfg.Name = some o1 ∧
      RoomsProvisioned cfg (count + m) o1 ∧
      ((provisionRooms cfg m w undo).2.1.clientset.namespacesNamed cfg.Name).length =
        (w.clientset.namespacesNamed cfg.Name).length ∧
      (provisionRooms cfg m w undo).2.1.db = w.db := by
  intro m
  induction m with
  | zero =>
    intro w undo o count _ ho hinv
    exact ⟨o, ho, hinv, rfl, rfl⟩
  | succ m ih =>
    intro w undo o count h ho hinv
    unfold provisionRooms at h ⊢
    simp only [] at h ⊢
    split at h
    · simp at h
    · rename_i hr
      obtain ⟨o1, ho1, hinv1, hlen1, hdb1⟩ := provisionRoom_ok cfg w undo o count hr ho hinv
      obtain ⟨o2, ho2, hinv2, hlen2, hdb2⟩ := ih _ _ o1 (count + 1) h ho1 hinv1
      refine ⟨o2, ho2, ?_, ?_, ?_⟩
      · have : count + 1 + m = count + (m + 1) := by omega
        rw [← this]; exact hinv2
      · rw [hlen2, hlen1]
      · rw [hdb2, hdb1]

theorem createScheduler_ok (cfg : ConfigYAML) (w : World)
    (h : (CreateScheduler cfg w).1 = none) :
    ∃ o, (CreateScheduler cfg w).2.clientset.findNamespace cfg.Name = some o ∧
      RoomsProvisioned cfg cfg.AutoScaling.Min o ∧
      ((CreateScheduler cfg w).2.clientset.namespacesNamed cfg.Name).length = 1 := by
  unfold CreateScheduler at h ⊢
  simp only [] at h ⊢
  split at h
  · simp at h
  · rename_i hc
    split at h
    · simp at h
    · rename_i hp
      split at h
      · simp at h
      · split at h
        · simp at h
        · simp only []
          obtain ⟨hfind, hone⟩ := namespacesCreate_ok w.clientset cfg.Name hc
          have hempty : RoomsProvisioned cfg 0 ⟨cfg.Name, [], []⟩ := by
            simp [RoomsProvisioned]
          obtain ⟨o1, ho1, hinv1, hlen1, -⟩ :=
            provisionRooms_ok cfg cfg.AutoScaling.Min
              { w with clientset := ((NewNamespace cfg.Name).Create w.clientset).2 } []
              ⟨cfg.Name, [], []⟩ 0 hp hfind hempty
          refine ⟨o1, ho1, ?_, ?_⟩
          · simpa using hinv1
          · rw [hlen1]; exact hone

theorem roomName_shape (schedulerName : String) (r : Nat) :
    ∃ suffix : String, roomName schedulerName r = schedulerName ++ "-" ++ suffix ∧
      suffix.length = roomSuffixLength ∧
      (roomName schedulerName r).length = schedulerName.length + 1 + roomSuffixLength := by
  refine ⟨String.mk (hex8 r), rfl, rfl, ?_⟩
  unfold roomName
  rw [String.length_append, String.length_append]
  rfl

theorem nodePortEnv_names (ports : List Port) : ∀ nodePorts : List Nat,
    (nodePortEnv ports nodePorts).map EnvVar.Name = ports.map nodePortEnvName := by
  induction ports with
  | nil => intro _; rfl
  | cons p ps ih =>
    intro nodePorts
    simp only [nodePortEnv, List.map_cons, ih]

/-! ## Rollback on a reliable platform -/

theorem podsDelete_reliable (k : Clientset) (ns name : String) (h : k.reliable) :
    (k.PodsDelete ns name).2.reliable := by
  have hr := (enter_reliable k (KubeCall.podsDelete ns name) h).2
  unfold Clientset.PodsDelete
  rcases he : k.enter (KubeCall.podsDelete ns name) with ⟨f, k1⟩
  rw [he] at hr
  cases f with
  | some e => exact hr
  | none =>
    simp only []
    split
    · exact hr
    · exact hr

theorem servicesDelete_reliable (k : Clientset) (ns name : String) (h : k.reliable) :
    (k.ServicesDelete ns name).2.reliable := by
  have hr := (enter_reliable k (KubeCall.servicesDelete ns name) h).2
  unfold Clientset.ServicesDelete
  rcases he : k.enter (KubeCall.servicesDelete ns name) with ⟨f, k1⟩
  rw [he] at hr
  cases f with
  | some e => exact hr
  | none =>
    simp only []
    split
    · exact hr
    · exact hr

theorem undoStep_reliable (cfg : ConfigYAML) (w : World) (u : Undo)
    (h : w.clientset.reliable) : (undoStep cfg w u).clientset.reliable := by
  cases u with
  | pod room => exact podsDelete_reliable _ _ _ h
  | service room => exact servicesDelete_reliable _ _ _ h
  | roomIndex room => exact h

theorem undoAll_reliable (cfg : ConfigYAML) (undo : List Undo) : ∀ w : World,
    w.clientset.reliable → (undoAll cfg w undo).clientset.reliable := by
  unfold undoAll
  induction undo with
  | nil => intro w h; exact h
  | cons u us ih =>
    intro w h
    exact ih _ (undoStep_reliable cfg w u h)

theorem rollback_removes_namespace (cfg : ConfigYAML) (w : World) (undo : List Undo)
    (h : w.clientset.reliable) :
    (rollback cfg w undo).clientset.findNamespace cfg.Name = none := by
  unfold rollback
  exact (delete_reliable _ cfg.Name (undoAll_reliable cfg undo w h)).1

theorem nothing_left_of_absent (k : Clientset) (n : String) (h : k.findNamespace n = none) :
    k.namespacesNamed n = [] ∧ k.podsIn n = [] ∧ k.servicesIn n = [] := by
  refine ⟨?_, ?_, ?_⟩
  · unfold Clientset.namespacesNamed
    rw [List.filter_eq_nil_iff]
    intro o ho
    simpa using (findNamespace_eq_none_iff k n).1 h o ho
  · unfold Clientset.podsIn; rw [h]
  · unfold Clientset.servicesIn; rw [h]

/-! ## Rollback empties the namespace before deleting it -/

theorem podsDelete_effect (k : Clientset) (ns name : String) (o : NamespaceObject)
    (h : k.reliable) (ho : k.findNamespace ns = some o) :
    (k.PodsDelete ns name).2.findNamespace ns =
      some { o with Pods := o.Pods.filter (fun p => decide (p.Name ≠ name)) } := by
  have hr := (enter_reliable k (KubeCall.podsDelete ns name) h).1
  have hf := enter_findNamespace k (KubeCall.podsDelete ns name) ns
  unfold Clientset.PodsDelete
  rcases he : k.enter (KubeCall.podsDelete ns name) with ⟨f, k1⟩
  rw [he] at hr hf
  simp only [] at hr hf
  subst hr
  rw [ho] at hf
  have hpods : k1.podsIn ns = o.Pods := by
    unfold Clientset.podsIn; rw [hf]
  simp only [hpods]
  by_cases hmem : name ∈ o.Pods.map Pod.Name
  · rw [if_pos hmem]
    exact findNamespace_modify k1 ns
      (fun o => { o with Pods := o.Pods.filter (fun p => decide (p.Name ≠ name)) })
      (fun _ => rfl) o hf
  · rw [if_neg hmem]
    simp only []
    rw [hf]
    have hall : o.Pods.filter (fun p => decide (p.Name ≠ name)) = o.Pods := by
      rw [List.filter_eq_self]
      intro p hp
      have : p.Name ≠ name := fun hpn => hmem (List.mem_map.2 ⟨p, hp, hpn⟩)
      simpa using this
    rw [hall]

theorem servicesDelete_effect (k : Clientset) (ns name : String) (o : NamespaceObject)
    (h : k.reliable) (ho : k.findNamespace ns = some o) :
    (k.ServicesDelete ns name).2.findNamespace ns =
      some { o with Services := o.Services.filter (fun p => decide (p.Name ≠ name)) } := by
  have hr := (enter_reliable k (KubeCall.servicesDelete ns name) h).1
  have hf := enter_findNamespace k (KubeCall.servicesDelete ns name) ns
  unfold Clientset.ServicesDelete
  rcases he : k.enter (KubeCall.servicesDelete ns name) with ⟨f, k1⟩
  rw [he] at hr hf
  simp only [] at hr hf
  subst hr
  rw [ho] at hf
  have hsvcs : k1.servicesIn ns = o.Services := by
    unfold Clientset.servicesIn; rw [hf]
  simp only [hsvcs]
  by_cases hmem : name ∈ o.Services.map Service.Name
  · rw [if_pos hmem]
    exact findNamespace_modify k1 ns
      (fun o => { o with Services := o.Services.filter (fun p => decide (p.Name ≠ name)) })
      (fun _ => rfl) o hf
  · rw [if_neg hmem]
    simp only []
    rw [hf]
    have hall : o.Services.filter (fun p => decide (p.Name ≠ name)) = o.Services := by
      rw [List.filter_eq_self]
      intro p hp
      have : p.Name ≠ name := fun hpn => hmem (List.mem_map.2 ⟨p, hp, hpn⟩)
      simpa using this
    rw [hall]

theorem undoStep_effect (cfg : ConfigYAML) (w : World) (u : Undo) (o : NamespaceObject)
    (h : w.clientset.reliable) (ho : w.clientset.findNamespace cfg.Name = some o) :
    ∃ o1, (undoStep cfg w u).clientset.findNamespace cfg.Name = some o1 ∧
      (∀ p ∈ o1.Pods, p ∈ o.Pods ∧ Undo.pod p.Name ≠ u) ∧
      (∀ s ∈ o1.Services, s ∈ o.Services ∧ Undo.service s.Name ≠ u) := by
  cases u with
  | pod room =>
    refine ⟨_, podsDelete_effect _ _ room o h ho, ?_, ?_⟩
    · intro p hp
      simp only [List.mem_filter, decide_eq_true_eq] at hp
      exact ⟨hp.1, fun heq => hp.2 (Undo.pod.inj heq)⟩
    · intro s hs
      exact ⟨hs, fun heq => Undo.noConfusion heq⟩
  | service room =>
    refine ⟨_, servicesDelete_effect _ _ room o h ho, ?_, ?_⟩
    · intro p hp
      exact ⟨hp, fun heq => Undo.noConfusion heq⟩
    · intro s hs
      simp only [List.mem_filter, decide_eq_true_eq] at hs
      exact ⟨hs.1, fun heq => hs.2 (Undo.service.inj heq)⟩
  | roomIndex room =>
    exact ⟨o, ho, fun p hp => ⟨hp, fun heq => Undo.noConfusion heq⟩,
      fun s hs => ⟨hs, fun heq => Undo.noConfusion heq⟩⟩

theorem undoAll_effect (cfg : ConfigYAML) (undo : List Undo) : ∀ (w : World)
    (o : NamespaceObject), w.clientset.reliable →
    w.clientset.findNamespace cfg.Name = some o →
    ∃ o1, (undoAll cfg w undo).clientset.findNamespace cfg.Name = some o1 ∧
      (∀ p ∈ o1.Pods, p ∈ o.Pods ∧ Undo.pod p.Name ∉ undo) ∧
      (∀ s ∈ o1.Services, s ∈ o.Services ∧ Undo.service s.Name ∉ undo) := by
  unfold undoAll
  induction undo with
  | nil =>
    intro w o _ ho
    exact ⟨o, ho, fun p hp => ⟨hp, List.not_mem_nil _⟩, fun s hs => ⟨hs, List.not_mem_nil _⟩⟩
  | cons u us ih =>
    intro w o h ho
    obtain ⟨o1, ho1, hp1, hs1⟩ := undoStep_effect cfg w u o h ho
    obtain ⟨o2, ho2, hp2, hs2⟩ := ih (undoStep cfg w u) o1 (undoStep_reliable cfg w u h) ho1
    refine ⟨o2, ho2, ?_, ?_⟩
    · intro p hp
      obtain ⟨hin1, hnot⟩ := hp2 p hp
      obtain ⟨hin, hne⟩ := hp1 p hin1
      refine ⟨hin, ?_⟩
      intro hmem
      rcases List.mem_cons.1 hmem with heq | hrest
      · exact hne heq
      · exact hnot hrest
    · intro s hs
      obtain ⟨hin1, hnot⟩ := hs2 s hs
      obtain ⟨hin, hne⟩ := hs1 s hin1
      refine ⟨hin, ?_⟩
      intro hmem
      rcases List.mem_cons.1 hmem with heq | hrest
      · exact hne heq
      · exact hnot hrest

theorem provisionRoom_covers (cfg : ConfigYAML) (w : World) (undo : List Undo)
    (o : NamespaceObject)
    (h : (provisionRoom cfg w undo).1 = none)
    (ho : w.clientset.findNamespace cfg.Name = some o)
    (hcov : UndoCovers undo o) :
    ∃ o1, (provisionRoom cfg w undo).2.1.clientset.findNamespace cfg.Name = some o1 ∧
      UndoCovers (provisionRoom cfg w undo).2.2 o1 := by
  unfold provisionRoom at h ⊢
  simp only [] at h ⊢
  split at h
  · simp at h
  · rename_i hp
    split at h
    · simp at h
    · rename_i hs
      split at h
      · simp at h
      · simp only []
        obtain ⟨o0, ho0, -, hfind, -⟩ := podsCreate_ok _ _ _ hp
        obtain ⟨o2, ho2, -, hfind2, -⟩ := servicesCreate_ok _ _ _ hs
        have ho0' : o0 = o := by
          have : (allocateNodePorts w.clientset cfg.Ports).2.findNamespace cfg.Name
              = w.clientset.findNamespace cfg.Name := rfl
          rw [this, ho] at ho0
          exact (Option.some.inj ho0).symm
        subst ho0'
        rw [hfind] at ho2
        have ho2' := (Option.some.inj ho2).symm
        subst ho2'
        refine ⟨_, hfind2, ?_, ?_⟩
        · intro p hpmem
          simp only [List.mem_append, List.mem_singleton] at hpmem
          rcases hpmem with hpmem | hpmem
          · exact List.mem_cons_of_mem _ (List.mem_cons_of_mem _
              (List.mem_cons_of_mem _ (hcov.1 p hpmem)))
          · subst hpmem
            exact List.mem_cons_of_mem _ (List.mem_cons_of_mem _ (List.mem_cons_self _ _))
        · intro s hsmem
          simp only [List.mem_append, List.mem_singleton] at hsmem
          rcases hsmem with hsmem | hsmem
          · exact List.mem_cons_of_mem _ (List.mem_cons_of_mem _
              (List.mem_cons_of_mem _ (hcov.2 s hsmem)))
          · subst hsmem
            exact List.mem_cons_of_mem _ (List.mem_cons_self _ _)

theorem provisionRooms_covers (cfg : ConfigYAML) : ∀ (m : Nat) (w : World)
    (undo : List Undo) (o : NamespaceObject),
    (provisionRooms cfg m w undo).1 = none →
    w.clientset.findNamespace cfg.Name = some o →
    UndoCovers undo o →
    ∃ o1, (provisionRooms cfg m w undo).2.1.clientset.findNamespace cfg.Name = some o1 ∧
      UndoCovers (provisionRooms cfg m w undo).2.2 o1 := by
  intro m
  induction m with
  | zero =>
    intro w undo o _ ho hcov
    exact ⟨o, ho, hcov⟩
  | succ m ih =>
    intro w undo o h ho hcov
    unfold provisionRooms at h ⊢
    simp only [] at h ⊢
    split at h
    · simp at h
    · rename_i hr
      obtain ⟨o1, ho1, hcov1⟩ := provisionRoom_covers cfg w undo o hr ho hcov
      exact ih _ _ o1 h ho1 hcov1

theorem undoAll_empties_namespace (cfg : ConfigYAML) (w : World) (undo : List Undo)
    (o : NamespaceObject) (h : w.clientset.reliable)
    (ho : w.clientset.findNamespace cfg.Name = some o) (hcov : UndoCovers undo o) :
    (undoAll cfg w undo).clientset.findNamespace cfg.Name = some ⟨cfg.Name, [], []⟩ := by
  obtain ⟨o1, ho1, hp, hs⟩ := undoAll_effect cfg undo w o h ho
  have hname := findNamespace_name _ _ _ ho1
  have hpods : o1.Pods = [] := by
    rw [List.eq_nil_iff_forall_not_mem]
    intro p hmem
    exact (hp p hmem).2 (hcov.1 p (hp p hmem).1)
  have hsvcs : o1.Services = [] := by
    rw [List.eq_nil_iff_forall_not_mem]
    intro s hmem
    exact (hs s hmem).2 (hcov.2 s (hs s hmem).1)
  rw [ho1]
  cases o1
  simp only [] at hname hpods hsvcs
  subst hname hpods hsvcs
  rfl

/-! ## `CreateScheduler` -/

theorem roomEnv_entries (cfg : ConfigYAML) (room : String) (nodePorts : List Nat) :
    (roomEnv cfg room nodePorts).map EnvVar.Name =
        cfg.Env.map EnvVar.Name ++ ["MAESTRO_SCHEDULER_NAME", "MAESTRO_ROOM_ID"] ++
          cfg.Ports.map nodePortEnvName ∧
      (roomEnv cfg room nodePorts)[cfg.Env.length]? =
        some ⟨"MAESTRO_SCHEDULER_NAME", cfg.Name⟩ ∧
      (roomEnv cfg room nodePorts)[cfg.Env.length + 1]? = some ⟨"MAESTRO_ROOM_ID", room⟩ ∧
      ∀ i port, cfg.Ports[i]? = some port →
        ((roomEnv cfg room nodePorts)[cfg.Env.length + 2 + i]?).map EnvVar.Name =
          some (nodePortEnvName port) := by
  refine ⟨?_, ?_, ?_, ?_⟩
  · simp [roomEnv, nodePortEnv_names]
  · unfold roomEnv
    rw [List.append_assoc, List.getElem?_append_right (Nat.le_refl _)]
    simp
  · unfold roomEnv
    rw [List.append_assoc, List.getElem?_append_right (Nat.le_add_right _ _)]
    simp
  · intro i port hport
    have hidx : (roomEnv cfg room nodePorts)[cfg.Env.length + 2 + i]? =
        (nodePortEnv cfg.Ports nodePorts)[i]? := by
      unfold roomEnv
      rw [List.getElem?_append_right (by simp)]
      simp
    rw [hidx, ← List.getElem?_map, nodePortEnv_names, List.getElem?_map, hport]
    rfl

/-- C4: when the namespace was created, all rooms were provisioned and the
relational insert then fails with `e`, `CreateScheduler` returns `e` itself,
never a rollback error, whatever the rollback meets.  When the transport of
the platform does not fail during the rollback (as in the test), the delete
requests of the rollback alone leave the namespace without workload and
without service while it is still stored, and after the namespace delete the
platform holds no namespace, no workload and no service under the scheduler
name. -/
theorem create_scheduler_insert_failure_rolls_back (cfg : ConfigYAML) (w : World)
    (k1 : Clientset) (w1 : World) (undo : List Undo) (e : GoError) (db1 : DB)
    (hns : (NewNamespace cfg.Name).Create w.clientset = (none, k1))
    (hrooms : provisionRooms cfg cfg.AutoScaling.Min { w with clientset := k1 } [] =
      (none, w1, undo))
    (hins : w1.db.Insert cfg.Name cfg.Game cfg = (some e, db1)) :
    (CreateScheduler cfg w).1 = some e ∧
      (w1.clientset.reliable →
        (undoAll cfg { w1 with db := db1 } undo).clientset.findNamespace cfg.Name =
          some ⟨cfg.Name, [], []⟩ ∧
        (undoAll cfg { w1 with db := db1 } undo).clientset.podsIn cfg.Name = [] ∧
        (undoAll cfg { w1 with db := db1 } undo).clientset.servicesIn cfg.Name = [] ∧
        (CreateScheduler cfg w).2.clientset =
          ((NewNamespace cfg.Name).Delete
            (undoAll cfg { w1 with db := db1 } undo).clientset).2 ∧
        (CreateScheduler cfg w).2.clientset.namespacesNamed cfg.Name = [] ∧
        (CreateScheduler cfg w).2.clientset.podsIn cfg.Name = [] ∧
        (CreateScheduler cfg w).2.clientset.servicesIn cfg.Name = []) := by
  have hcs : CreateScheduler cfg w = (some e, rollback cfg { w1 with db := db1 } undo) := by
    unfold CreateScheduler
    simp only [hns, hrooms, hins]
  rw [hcs]
  refine ⟨rfl, ?_⟩
  intro hrel
  have hcreated : ((NewNamespace cfg.Name).Create w.clientset).1 = none := by rw [hns]
  have hk1 : k1.findNamespace cfg.Name = some ⟨cfg.Name, [], []⟩ := by
    have := (namespacesCreate_ok w.clientset cfg.Name hcreated).1
    rw [show w.clientset.NamespacesCreate cfg.Name = (NewNamespace cfg.Name).Create w.clientset
      from rfl, hns] at this
    exact this
  have hprov : (provisionRooms cfg cfg.AutoScaling.Min { w with clientset := k1 } []).1
      = none := by rw [hrooms]
  obtain ⟨o1, ho1, hcov⟩ := provisionRooms_covers cfg cfg.AutoScaling.Min
    { w with clientset := k1 } [] ⟨cfg.Name, [], []⟩ hprov hk1
    ⟨fun p hp => absurd hp (List.not_mem_nil _), fun s hs => absurd hs (List.not_mem_nil _)⟩
  rw [hrooms] at ho1 hcov
  simp only [] at ho1 hcov
  have hempty := undoAll_empties_namespace cfg { w1 with db := db1 } undo o1 hrel ho1 hcov
  have hgone := nothing_left_of_absent _ _
    (rollback_removes_namespace cfg { w1 with db := db1 } undo hrel)
  refine ⟨hempty, ?_, ?_, rfl, hgone.1, hgone.2.1, hgone.2.2⟩
  · unfold Clientset.podsIn; rw [hempty]
  · unfold Clientset.servicesIn; rw [hempty]

/-- Witness of C4: the test "should rollback if error in db occurs", `yaml1`
against a relational store that fails the insert; the rollback sends one delete
request per service and workload, then looks the namespace up and deletes it. -/
theorem create_scheduler_insert_failure_rolls_back_witness :
    (CreateScheduler yaml1 dbFailingWorld).1 = some (errorsNew "Some error in db") ∧
      (CreateScheduler yaml1 dbFailingWorld).2.clientset.namespacesNamed "controller-name"
        = [] ∧
      (CreateScheduler yaml1 dbFailingWorld).2.clientset.podsIn "controller-name" = [] ∧
      (CreateScheduler yaml1 dbFailingWorld).2.clientset.servicesIn "controller-name" = [] ∧
      (CreateScheduler yaml1 dbFailingWorld).2.clientset.calls.drop 7 =
        [KubeCall.servicesDelete "controller-name" "controller-name-00000003",
         KubeCall.podsDelete "controller-name" "controller-name-00000003",
         KubeCall.servicesDelete "controller-name" "controller-name-00000002",
         KubeCall.podsDelete "controller-name" "controller-name-00000002",
         KubeCall.servicesDelete "controller-name" "controller-name-00000001",
         KubeCall.podsDelete "controller-name" "controller-name-00000001",
         KubeCall.namespacesGet "controller-name",
         KubeCall.namespacesDelete "controller-name"] :=
  have h := create_scheduler_insert_failure_rolls_back yaml1 dbFailingWorld
    ((NewNamespace yaml1.Name).Create dbFailingWorld.clientset).2
    (provisionRooms yaml1 3
      { dbFailingWorld with
        clientset := ((NewNamespace yaml1.Name).Create dbFailingWorld.clientset).2 } []).2.1
    (provisionRooms yaml1 3
      { dbFailingWorld with
        clientset := ((NewNamespace yaml1.Name).Create dbFailingWorld.clientset).2 } []).2.2
    (errorsNew "Some error in db")
    { DB.fresh with faults := [] }
    (by decide) (by decide) (by decide)
  ⟨h.1, (h.2 (by decide)).2.2.2.2.1, (h.2 (by decide)).2.2.2.2.2.1,
    (h.2 (by decide)).2.2.2.2.2.2, by decide⟩

/-- The transport hypothesis of the teardown is needed: with `yaml1`, the
namespace created, three rooms provisioned and the insert failing with
`Some error in db`, a platform that fails the delete request for the namespace
keeps `controller-name` stored, while `CreateScheduler` still returns the store
error and the workloads and services are gone. -/
theorem create_scheduler_rollback_can_leave_namespace :
    ((NewNamespace yaml1.Name).Create rollbackFailingWorld.clientset).1 = none ∧
    (provisionRooms yaml1 yaml1.AutoScaling.Min
      { rollbackFailingWorld with
        clientset := ((NewNamespace yaml1.Name).Create rollbackFailingWorld.clientset).2 }
      []).1 = none ∧
    ((provisionRooms yaml1 yaml1.AutoScaling.Min
      { rollbackFailingWorld with
        clientset := ((NewNamespace yaml1.Name).Create rollbackFailingWorld.clientset).2 }
      []).2.1.db.Insert yaml1.Name yaml1.Game yaml1).1 = some (errorsNew "Some error in db") ∧
    (CreateScheduler yaml1 rollbackFailingWorld).1 = some (errorsNew "Some error in db") ∧
    (CreateScheduler yaml1 rollbackFailingWorld).2.clientset.namespacesNamed "controller-name"
      = [⟨"controller-name", [], []⟩] := by
  decide

/-- C5: after a successful `CreateScheduler` for a specification with autoscaling
minimum `M`, the platform holds exactly one namespace named after the scheduler,
with exactly `M` workloads and exactly `M` services in it; the name of each is
the scheduler name, a dash, and a suffix of length 8, so of length
`len(name) + 1 + 8`; and no two workloads, and no two services, share a name. -/
theorem create_scheduler_success_rooms (cfg : ConfigYAML) (w : World)
    (h : (CreateScheduler cfg w).1 = none) :
    ((CreateScheduler cfg w).2.clientset.namespacesNamed cfg.Name).length = 1 ∧
    ((CreateScheduler cfg w).2.clientset.podsIn cfg.Name).length = cfg.AutoScaling.Min ∧
    ((CreateScheduler cfg w).2.clientset.servicesIn cfg.Name).length = cfg.AutoScaling.Min ∧
    (∀ p ∈ (CreateScheduler cfg w).2.clientset.podsIn cfg.Name,
      ∃ suffix : String, p.Name = cfg.Name ++ "-" ++ suffix ∧ suffix.length = 8 ∧
        p.Name.length = cfg.Name.length + 1 + 8) ∧
    (∀ s ∈ (CreateScheduler cfg w).2.clientset.servicesIn cfg.Name,
      ∃ suffix : String, s.Name = cfg.Name ++ "-" ++ suffix ∧ suffix.length = 8 ∧
        s.Name.length = cfg.Name.length + 1 + 8) ∧
    (((CreateScheduler cfg w).2.clientset.podsIn cfg.Name).map Pod.Name).Nodup ∧
    (((CreateScheduler cfg w).2.clientset.servicesIn cfg.Name).map Service.Name).Nodup := by
  obtain ⟨o, ho, ⟨hpl, hsl, hpn, hsn, hpods, hsvcs⟩, hone⟩ := createScheduler_ok cfg w h
  have hp : (CreateScheduler cfg w).2.clientset.podsIn cfg.Name = o.Pods := by
    unfold Clientset.podsIn; rw [ho]
  have hs : (CreateScheduler cfg w).2.clientset.servicesIn cfg.Name = o.Services := by
    unfold Clientset.servicesIn; rw [ho]
  rw [hp, hs]
  refine ⟨hone, hpl, hsl, ?_, ?_, hpn, hsn⟩
  · intro p hmem
    obtain ⟨r, nodePorts, hpr⟩ := hpods p hmem
    subst hpr
    exact roomName_shape cfg.Name r
  · intro s hmem
    obtain ⟨r, nodePorts, hsr⟩ := hsvcs s hmem
    subst hsr
    exact roomName_shape cfg.Name r

/-- Witness of C5: the test "should succeed", `yaml1` on fresh back-ends. -/
theorem create_scheduler_success_rooms_witness :
    ((CreateScheduler yaml1 (World.fresh [1, 2, 3])).2.clientset.namespacesNamed
        "controller-name").length = 1 ∧
    ((CreateScheduler yaml1 (World.fresh [1, 2, 3])).2.clientset.podsIn
        "controller-name").length = 3 ∧
    ((CreateScheduler yaml1 (World.fresh [1, 2, 3])).2.clientset.servicesIn
        "controller-name").length = 3 :=
  have h := create_scheduler_success_rooms yaml1 (World.fresh [1, 2, 3]) (by decide)
  ⟨h.1, h.2.1, h.2.2.1⟩

/-- C6: after a successful `CreateScheduler` for a specification with declared
environment `E` and declared ports `P`, every workload of the scheduler has the
environment `E`, then `MAESTRO_SCHEDULER_NAME` (the scheduler name), then
`MAESTRO_ROOM_ID` (the name of the workload itself), then one
`MAESTRO_NODE_PORT_<containerPort>_<PROTOCOL>` per port of `P` in declared
order: the entry at index `len(E)` is `MAESTRO_SCHEDULER_NAME`, the one at
`len(E) + 1` is `MAESTRO_ROOM_ID`, and the one at `len(E) + 2 + i` is named
after the `i`-th declared port. -/
theorem created_workload_environment (cfg : ConfigYAML) (w : World)
    (h : (CreateScheduler cfg w).1 = none) :
    ∀ p ∈ (CreateScheduler cfg w).2.clientset.podsIn cfg.Name,
      (∃ nodePorts, p.Env =
        cfg.Env ++ [⟨"MAESTRO_SCHEDULER_NAME", cfg.Name⟩, ⟨"MAESTRO_ROOM_ID", p.Name⟩] ++
          nodePortEnv cfg.Ports nodePorts) ∧
      p.Env.map EnvVar.Name =
        cfg.Env.map EnvVar.Name ++ ["MAESTRO_SCHEDULER_NAME", "MAESTRO_ROOM_ID"] ++
          cfg.Ports.map (fun port =>
            "MAESTRO_NODE_PORT_" ++ FormatInt (port.ContainerPort : Int) ++ "_" ++
              port.Protocol) ∧
      p.Env[cfg.Env.length]? = some ⟨"MAESTRO_SCHEDULER_NAME", cfg.Name⟩ ∧
      p.Env[cfg.Env.length + 1]? = some ⟨"MAESTRO_ROOM_ID", p.Name⟩ ∧
      ∀ i port, cfg.Ports[i]? = some port →
        (p.Env[cfg.Env.length + 2 + i]?).map EnvVar.Name =
          some ("MAESTRO_NODE_PORT_" ++ FormatInt (port.ContainerPort : Int) ++ "_" ++
            port.Protocol) := by
  obtain ⟨o, ho, ⟨-, -, -, -, hpods, -⟩, -⟩ := createScheduler_ok cfg w h
  have hp : (CreateScheduler cfg w).2.clientset.podsIn cfg.Name = o.Pods := by
    unfold Clientset.podsIn; rw [ho]
  rw [hp]
  intro p hmem
  obtain ⟨r, nodePorts, hpr⟩ := hpods p hmem
  subst hpr
  have hent := roomEnv_entries cfg (roomName cfg.Name r) nodePorts
  exact ⟨⟨nodePorts, rfl⟩, hent.1, hent.2.1, hent.2.2.1, hent.2.2.2⟩

/-- Witness of C6: the first workload of `yaml1` carries, after `MY_ENV_VAR`, the
variables the test reads at indices 1 to 4. -/
theorem created_workload_environment_witness :
    (roomPod yaml1 "controller-name-00000001" [30000, 30001]).Env.map EnvVar.Name =
        ["MY_ENV_VAR", "MAESTRO_SCHEDULER_NAME", "MAESTRO_ROOM_ID",
          "MAESTRO_NODE_PORT_1234_UDP", "MAESTRO_NODE_PORT_7654_TCP"] ∧
      (roomPod yaml1 "controller-name-00000001" [30000, 30001]).Env[1]? =
        some ⟨"MAESTRO_SCHEDULER_NAME", "controller-name"⟩ ∧
      (roomPod yaml1 "controller-name-00000001" [30000, 30001]).Env[2]? =
        some ⟨"MAESTRO_ROOM_ID", "controller-name-00000001"⟩ :=
  have h := created_workload_environment yaml1 (World.fresh [1, 2, 3]) (by decide)
    (roomPod yaml1 "controller-name-00000001" [30000, 30001]) (by decide)
  ⟨h.2.1.trans (by decide), h.2.2.1, h.2.2.2.1⟩

end Maestro
